import Mathlib

/-!
Verification of the vdomgmnt storage-management layer (bin/vdomgmnt).

The Python sources are shallowly embedded: Python `str` values become lists
of characters, Python `int` becomes `Int` (or `Nat` where the source keeps
the quantity non-negative, as `SizeString._bytes` does), class instances
become structures, and methods become functions.  External processes,
the filesystem and the XML library are modelled at their interfaces: the
outcome of each external command is an input of the embedded function, and
the expat parser is modelled by the exact event stream it delivers for the
documents the configuration writer emits.
-/

/-- Python strings are modelled as lists of characters. -/
abbrev Str : Type := List Char

/-- Convenience injection of Lean string literals into the model. -/
def str (s : String) : Str := s.data

/-! ### Decimal rendering and parsing (Python `str(int)` / `int` / `float`)

`natRender` is Python's `str` on a non-negative integer; `natRenderAux`
carries fuel so that the recursion is structural (the fuel `n + 1` always
suffices, since `n / 10` shrinks).
-/

/-- One decimal digit as a character, `chr(48 + d)`. -/
def digitChar (d : Nat) : Char := Char.ofNat (48 + d)

/-- Fueled digit emitter: renders `n` in decimal, most significant first. -/
def natRenderAux : Nat → Nat → Str
  | 0, _ => []
  | fuel + 1, n =>
    if n = 0 then [] else natRenderAux fuel (n / 10) ++ [digitChar (n % 10)]

/-- Python `str` on a non-negative integer. -/
def natRender (n : Nat) : Str := if n = 0 then ['0'] else natRenderAux (n + 1) n

/-- Accumulator pass of decimal parsing. -/
def decimalFold (l : Str) : Nat :=
  l.foldl (fun acc c => 10 * acc + (c.toNat - 48)) 0

/-- Parse an unsigned decimal numeral; `none` models `ValueError`. -/
def decimalParse (l : Str) : Option Nat :=
  if l ≠ [] ∧ l.all Char.isDigit then some (decimalFold l) else none

/-! ### IEEE-double value model

`SizeString` goes through Python floats (`locale.atof` / `float`).  A
Python float is an IEEE double: a value `m * 2^k` with `m < 2^53`.
Converting a non-negative integer to a double rounds it to the nearest
53-bit-significand value (ties to even); `fl53` is that rounding.
Multiplying a double by one of the power-of-two unit multipliers is exact
(barring overflow far beyond any realistic size), so it is modelled as
exact multiplication.
-/

/-- Round a natural number to the nearest 53-bit-significand value
(ties to even): the value of `float(n)` for a non-negative integer `n`. -/
def fl53 (n : Nat) : Nat :=
  if n < 2 ^ 53 then n
  else if 2 ^ (n.log2 - 52 - 1) < n % 2 ^ (n.log2 - 52) ∨
          (n % 2 ^ (n.log2 - 52) = 2 ^ (n.log2 - 52 - 1) ∧
            (n / 2 ^ (n.log2 - 52)) % 2 = 1)
       then (n / 2 ^ (n.log2 - 52) + 1) * 2 ^ (n.log2 - 52)
       else n / 2 ^ (n.log2 - 52) * 2 ^ (n.log2 - 52)

/-- Byte counts representable exactly in a double. -/
def Rep53 (n : Nat) : Prop := ∃ m k, m < 2 ^ 53 ∧ n = m * 2 ^ k

/-! ### SizeString (bin/vdomgmnt/SizeString.py)

`SizeString` keeps a byte count `_bytes`.  `asInteger` (which is also
`__str__`) renders it with the largest unit suffix that divides it evenly;
the constructor parses a numeral with an optional unit suffix through
`locale.atof`/`float` (modelled by `decimalParse` followed by `fl53`) and
multiplies by the suffix's power-of-two multiplier.
-/

/-- ASCII lower-casing of one character, as Python `str.lower` does. -/
def charLower (c : Char) : Char :=
  if 'A' ≤ c ∧ c ≤ 'Z' then Char.ofNat (c.toNat + 32) else c

/-- ASCII upper-casing of one character, as Python `str.upper` does. -/
def charUpper (c : Char) : Char :=
  if 'a' ≤ c ∧ c ≤ 'z' then Char.ofNat (c.toNat - 32) else c

/-- `SizeString._multipliers`: bytes per unit suffix. -/
def multiplier (c : Char) : Option Nat :=
  if c = 'b' then some 1
  else if c = 's' then some 512
  else if c = 'k' then some 1024
  else if c = 'm' then some 1048576
  else if c = 'g' then some 1073741824
  else if c = 't' then some 1099511627776
  else if c = 'p' then some 1125899906842624
  else if c = 'e' then some 1152921504606846976
  else none

/-- `SizeString.asInteger` (the loop over `['e','p','t','g','m','k']`
unrolled): render without a decimal point, using the largest unit that
divides the byte count evenly, else a `B` suffix. -/
def sizeStringAsInteger (bytes : Nat) : Str :=
  if bytes = 0 then ['0']
  else if bytes % 1152921504606846976 = 0 then
    natRender (bytes / 1152921504606846976) ++ ['E']
  else if bytes % 1125899906842624 = 0 then
    natRender (bytes / 1125899906842624) ++ ['P']
  else if bytes % 1099511627776 = 0 then
    natRender (bytes / 1099511627776) ++ ['T']
  else if bytes % 1073741824 = 0 then
    natRender (bytes / 1073741824) ++ ['G']
  else if bytes % 1048576 = 0 then
    natRender (bytes / 1048576) ++ ['M']
  else if bytes % 1024 = 0 then
    natRender (bytes / 1024) ++ ['K']
  else natRender bytes ++ ['B']

/-- Model of `SizeString._atof` on an unsigned integer numeral: the exact
value rounded to double precision.  (The claims only exercise `_atof` on
the numerals `asInteger` emits, which never carry a decimal point; other
spellings raise `ValueError`, modelled by `none`.) -/
def atofDigits (l : Str) : Option Nat := (decimalParse l).map fl53

/-- `SizeString.__init__`: empty means zero bytes, otherwise strip an
optional unit suffix, convert through a double, and scale.  (Scaling by a
power-of-two multiplier is exact in double arithmetic, see `fl53`.) -/
def sizeStringParse (sz : Str) : Option Nat :=
  match sz.getLast? with
  | none => some 0
  | some c =>
    match multiplier (charLower c) with
    | some m => (atofDigits sz.dropLast).map (· * m)
    | none => (atofDigits sz).map (· * 1048576)

/-! ### Python `str(int)` and `int(str)` for possibly negative integers -/

/-- Python `str` on an `int`. -/
def intRender (i : Int) : Str :=
  if i < 0 then '-' :: natRender i.natAbs else natRender i.toNat

/-- Python `int(str)` on the canonical spellings `str(int)` emits:
an optional minus sign followed by decimal digits. -/
def intParse (l : Str) : Option Int :=
  match l with
  | [] => none
  | c :: rest =>
    if c = '-' then (decimalParse rest).map (fun n => -(n : Int))
    else (decimalParse (c :: rest)).map (fun n => (n : Int))

/-! ### Boolean attribute serialization

Writing uses Python `str(bool)`; reading uses `value[0].upper() == 'T'`
(`VdoService.__setattr__` / `AlbireoService.__setattr__`).  Indexing an
empty string raises, modelled by `none`. -/

/-- Python `str` on a `bool`. -/
def boolRender (b : Bool) : Str := if b then str "True" else str "False"

/-- The managers' string-to-bool coercion `value[0].upper() == 'T'`. -/
def boolParse (l : Str) : Option Bool :=
  match l with
  | [] => none
  | c :: _ => some (charUpper c = 'T')

/-! ### LogicalVolume (bin/vdomgmnt/LogicalVolume.py)

The constructor validates only the syntax of the device path:
`fullpath.count(os.sep) != 3 or fullpath[:5] != '/dev/'` raises
`ArgumentError`.  `fullpath()`/`__str__` return the stored path verbatim.
-/

/-- The `LogicalVolume.__init__` syntax check: `true` iff construction
succeeds (no `ArgumentError`). -/
def lvAccepts (fullpath : Str) : Bool :=
  fullpath.count '/' == 3 && fullpath.take 5 == str "/dev/"

/-! ### Service records (bin/vdomgmnt/VdoService.py, AlbireoService.py)

Each service instance is a record of its typed attributes.  String-valued
assignment goes through `__setattr__`, which coerces by attribute name:
`int(value)` for the integer attributes, `value[0].upper() == 'T'` for the
booleans, `SizeString(value)` for the size quantities, and
`LogicalVolume(value)` for `logicalVolumePath` (storing the validated full
path).  `SizeString` fields are stored as their byte counts.
-/

/-- The persisted attributes of `VdoService` (plus the service name). -/
structure VdoServiceRec where
  name : Str
  physicalBlockSize : Int
  logicalBlockSize : Int
  blockMapCacheSize : Nat
  blockMapPageSize : Int
  enableCompression : Bool
  enableDeduplication : Bool
  enabled : Bool
  logicalSize : Nat
  logicalVolume : Option Str
  mdRaid5Mode : Str
  physicalSize : Nat
  readCacheSize : Nat
  recoveryScanRate : Int
  recoverySweepRate : Int
  reserveSize : Nat
  server : Str
  writePolicy : Str
  deriving DecidableEq

/-- The persisted attributes of `AlbireoService` (plus the service name).
`memory` is declared as free text in the source (its numeric default is
rendered as text when persisted), so it is a string here. -/
structure AlbireoServiceRec where
  name : Str
  cfreq : Int
  enabled : Bool
  indexPath : Str
  logicalVolume : Option Str
  memory : Str
  networkSpec : Str
  size : Nat
  sparse : Bool
  udsParallelFactor : Int
  deriving DecidableEq

/-- `VdoService.__init__(name)` with no keyword arguments: the defaults
from `Defaults` (`blockMapCacheSize = "128M"`, `readCacheSize = "0"`,
`reserveSize = "0"`, block sizes 4096, page size 32768, scan rate 640,
sweep rate 40, RAID5 mode `on`, write policy `read_from_superblock`). -/
def vdoFresh (name : Str) : VdoServiceRec where
  name := name
  physicalBlockSize := 4096
  logicalBlockSize := 4096
  blockMapCacheSize := 134217728
  blockMapPageSize := 32768
  enableCompression := false
  enableDeduplication := true
  enabled := true
  logicalSize := 0
  logicalVolume := none
  mdRaid5Mode := str "on"
  physicalSize := 0
  readCacheSize := 0
  recoveryScanRate := 640
  recoverySweepRate := 40
  reserveSize := 0
  server := []
  writePolicy := str "read_from_superblock"

/-- `AlbireoService.__init__(name)` with no keyword arguments (the integer
default `albireoMem = 0` of the free-text `memory` field renders as "0"). -/
def albFresh (name : Str) : AlbireoServiceRec where
  name := name
  cfreq := 0
  enabled := true
  indexPath := []
  logicalVolume := none
  memory := str "0"
  networkSpec := []
  size := 0
  sparse := false
  udsParallelFactor := 0

/-- `VdoService.getKeys()`. -/
def vdoGetKeys : List Str :=
  [str "blockMapCacheSize", str "blockMapPageSize",
   str "enableCompression", str "enableDeduplication", str "enabled",
   str "logicalBlockSize", str "logicalSize", str "logicalVolumePath",
   str "mdRaid5Mode", str "physicalBlockSize", str "physicalSize",
   str "readCacheSize", str "recoveryScanRate", str "recoverySweepRate",
   str "reserveSize", str "server", str "writePolicy"]

/-- `AlbireoService.getKeys()`. -/
def albGetKeys : List Str :=
  [str "cfreq", str "enabled", str "indexPath", str "logicalVolumePath",
   str "memory", str "networkSpec", str "size", str "sparse",
   str "udsParallelFactor"]

/-- Errors surfaced while reading a configuration file. -/
inductive ConfErr where
  /-- `BadConfigVersionError` from `Configuration.validateVersion`. -/
  | badVersion (v : Str)
  /-- A `ValueError`/`ArgumentError`/`IndexError` raised by the coercions
  in `__setattr__`. -/
  | badValue
  /-- A key outside the declared attribute set (Python would create a
  fresh dynamic attribute here, which a typed record cannot hold; the
  persisted documents never contain such keys). -/
  | unknownKey
  /-- A `KeyError` (missing XML attribute or unknown section name). -/
  | keyError
  deriving DecidableEq

/-- `VdoService.__setattr__` for a string-valued assignment, dispatching
on the attribute name exactly as the source's membership tests do:
integer names through `int`, boolean names through `value[0].upper() ==
'T'`, size names through `SizeString`, and `logicalVolumePath` through the
`LogicalVolume` constructor. -/
def vdoSetattr (r : VdoServiceRec) (key value : Str) : Except ConfErr VdoServiceRec :=
  if key = str "blockMapPageSize" then
    match intParse value with
    | some i => .ok { r with blockMapPageSize := i }
    | none => .error .badValue
  else if key = str "logicalBlockSize" then
    match intParse value with
    | some i => .ok { r with logicalBlockSize := i }
    | none => .error .badValue
  else if key = str "physicalBlockSize" then
    match intParse value with
    | some i => .ok { r with physicalBlockSize := i }
    | none => .error .badValue
  else if key = str "recoveryScanRate" then
    match intParse value with
    | some i => .ok { r with recoveryScanRate := i }
    | none => .error .badValue
  else if key = str "recoverySweepRate" then
    match intParse value with
    | some i => .ok { r with recoverySweepRate := i }
    | none => .error .badValue
  else if key = str "enableCompression" then
    match boolParse value with
    | some b => .ok { r with enableCompression := b }
    | none => .error .badValue
  else if key = str "enableDeduplication" then
    match boolParse value with
    | some b => .ok { r with enableDeduplication := b }
    | none => .error .badValue
  else if key = str "enabled" then
    match boolParse value with
    | some b => .ok { r with enabled := b }
    | none => .error .badValue
  else if key = str "blockMapCacheSize" then
    match sizeStringParse value with
    | some n => .ok { r with blockMapCacheSize := n }
    | none => .error .badValue
  else if key = str "logicalSize" then
    match sizeStringParse value with
    | some n => .ok { r with logicalSize := n }
    | none => .error .badValue
  else if key = str "physicalSize" then
    match sizeStringParse value with
    | some n => .ok { r with physicalSize := n }
    | none => .error .badValue
  else if key = str "readCacheSize" then
    match sizeStringParse value with
    | some n => .ok { r with readCacheSize := n }
    | none => .error .badValue
  else if key = str "reserveSize" then
    match sizeStringParse value with
    | some n => .ok { r with reserveSize := n }
    | none => .error .badValue
  else if key = str "logicalVolumePath" then
    if lvAccepts value then .ok { r with logicalVolume := some value }
    else .error .badValue
  else if key = str "mdRaid5Mode" then .ok { r with mdRaid5Mode := value }
  else if key = str "server" then .ok { r with server := value }
  else if key = str "writePolicy" then .ok { r with writePolicy := value }
  else .error .unknownKey

/-- `AlbireoService.__setattr__` for a string-valued assignment. -/
def albSetattr (r : AlbireoServiceRec) (key value : Str) :
    Except ConfErr AlbireoServiceRec :=
  if key = str "cfreq" then
    match intParse value with
    | some i => .ok { r with cfreq := i }
    | none => .error .badValue
  else if key = str "udsParallelFactor" then
    match intParse value with
    | some i => .ok { r with udsParallelFactor := i }
    | none => .error .badValue
  else if key = str "enabled" then
    match boolParse value with
    | some b => .ok { r with enabled := b }
    | none => .error .badValue
  else if key = str "sparse" then
    match boolParse value with
    | some b => .ok { r with sparse := b }
    | none => .error .badValue
  else if key = str "size" then
    match sizeStringParse value with
    | some n => .ok { r with size := n }
    | none => .error .badValue
  else if key = str "logicalVolumePath" then
    if lvAccepts value then .ok { r with logicalVolume := some value }
    else .error .badValue
  else if key = str "indexPath" then .ok { r with indexPath := value }
  else if key = str "memory" then .ok { r with memory := value }
  else if key = str "networkSpec" then .ok { r with networkSpec := value }
  else .error .unknownKey

/-- `getattr(vdo, key)` followed by `str(value)`, as `Configuration.persist`
does for each key of `getKeys()`; `logicalVolumePath` reads
`logicalVolume.fullpath()` and is undefined (`none`, an `AttributeError`)
when no logical volume is attached. -/
def vdoRender (r : VdoServiceRec) (key : Str) : Option Str :=
  if key = str "blockMapCacheSize" then some (sizeStringAsInteger r.blockMapCacheSize)
  else if key = str "blockMapPageSize" then some (intRender r.blockMapPageSize)
  else if key = str "enableCompression" then some (boolRender r.enableCompression)
  else if key = str "enableDeduplication" then some (boolRender r.enableDeduplication)
  else if key = str "enabled" then some (boolRender r.enabled)
  else if key = str "logicalBlockSize" then some (intRender r.logicalBlockSize)
  else if key = str "logicalSize" then some (sizeStringAsInteger r.logicalSize)
  else if key = str "logicalVolumePath" then r.logicalVolume
  else if key = str "mdRaid5Mode" then some r.mdRaid5Mode
  else if key = str "physicalBlockSize" then some (intRender r.physicalBlockSize)
  else if key = str "physicalSize" then some (sizeStringAsInteger r.physicalSize)
  else if key = str "readCacheSize" then some (sizeStringAsInteger r.readCacheSize)
  else if key = str "recoveryScanRate" then some (intRender r.recoveryScanRate)
  else if key = str "recoverySweepRate" then some (intRender r.recoverySweepRate)
  else if key = str "reserveSize" then some (sizeStringAsInteger r.reserveSize)
  else if key = str "server" then some r.server
  else if key = str "writePolicy" then some r.writePolicy
  else none

/-- `getattr(albserver, key)` followed by `str(value)` for each key of
`AlbireoService.getKeys()`. -/
def albRender (r : AlbireoServiceRec) (key : Str) : Option Str :=
  if key = str "cfreq" then some (intRender r.cfreq)
  else if key = str "enabled" then some (boolRender r.enabled)
  else if key = str "indexPath" then some r.indexPath
  else if key = str "logicalVolumePath" then r.logicalVolume
  else if key = str "memory" then some r.memory
  else if key = str "networkSpec" then some r.networkSpec
  else if key = str "size" then some (sizeStringAsInteger r.size)
  else if key = str "sparse" then some (boolRender r.sparse)
  else if key = str "udsParallelFactor" then some (intRender r.udsParallelFactor)
  else none

/-! ### Configuration (bin/vdomgmnt/Configuration.py)

A `Configuration` keeps two Python dictionaries keyed by service name,
modelled as insertion-ordered association lists: updating an existing key
replaces it in place, a fresh key is appended — exactly dict-assignment
order semantics.
-/

/-- Association-list lookup (`d[k]` / `k in d`). -/
def alGet {β : Type} : List (Str × β) → Str → Option β
  | [], _ => none
  | (k, v) :: rest, key => if key = k then some v else alGet rest key

/-- Association-list assignment (`d[k] = v`). -/
def alSet {β : Type} : List (Str × β) → Str → β → List (Str × β)
  | [], key, value => [(key, value)]
  | (k, v) :: rest, key, value =>
    if key = k then (k, value) :: rest else (k, v) :: alSet rest key value

/-- The events expat delivers to the registered handlers
(`StartElementHandler`, `CharacterDataHandler` with `buffer_text = True`,
`EndElementHandler`). -/
inductive XmlEvent where
  | startElem (name : Str) (attrs : List (Str × Str))
  | chardata (s : Str)
  | endElem (name : Str)

/-- The in-memory `Configuration` object: the two service dictionaries,
the schema version, the `_dirty`/`_readonly`/file-handle bookkeeping, and
the four parser state variables. -/
structure ConfState where
  vdos : List (Str × VdoServiceRec)
  albservers : List (Str × AlbireoServiceRec)
  schemaVersion : Str
  dirty : Bool
  readonly : Bool
  fhOpen : Bool
  currsection : Str
  currsecname : Str
  currkey : Str
  currvalue : Str
  deriving DecidableEq

/-- `Configuration.supportedSchemaVersions`. -/
def supportedSchemaVersions : List Str := [str "1.0"]

/-- `Configuration._read_startElement`.  On `vdoconfig` the version is
recorded and then validated (`validateVersion` raises
`BadConfigVersionError` on an unsupported version — the error carries the
object state at the raise).  A `vdo`/`albserver` element opens a section
and installs a freshly constructed service under its name; any element
inside a section becomes the current key. -/
def readStartElement (st : ConfState) (name : Str) (attrs : List (Str × Str)) :
    Except (ConfErr × ConfState) ConfState :=
  if st.currsection = [] then
    if name = str "vdoconfig" then
      match alGet attrs (str "version") with
      | none => .error (.keyError, st)
      | some v =>
        if v ∈ supportedSchemaVersions then .ok { st with schemaVersion := v }
        else .error (.badVersion v, { st with schemaVersion := v })
    else if name = str "vdo" then
      match alGet attrs (str "name") with
      | none => .error (.keyError, st)
      | some n =>
        .ok { st with currsection := name, currsecname := n, currkey := [],
                      currvalue := [], vdos := alSet st.vdos n (vdoFresh n) }
    else if name = str "albserver" then
      match alGet attrs (str "uri") with
      | none => .error (.keyError, st)
      | some n =>
        .ok { st with currsection := name, currsecname := n, currkey := [],
                      currvalue := [],
                      albservers := alSet st.albservers n (albFresh n) }
    else .ok st
  else .ok { st with currkey := name, currvalue := [] }

/-- `Configuration._read_charData`. -/
def readCharData (st : ConfState) (data : Str) : ConfState :=
  { st with currvalue := data }

/-- `Configuration._read_endElement`: closing the current section resets
it; otherwise a pending key is assigned into the current section's record
via `setattr` (the `__setattr__` coercions); the key and value state is
cleared in every case. -/
def readEndElement (st : ConfState) (name : Str) :
    Except (ConfErr × ConfState) ConfState :=
  match
    (if name = st.currsection then .ok { st with currsection := [] }
     else if st.currkey ≠ [] then
       if st.currsection = str "vdo" then
         match alGet st.vdos st.currsecname with
         | none => .error (.keyError, st)
         | some r =>
           match vdoSetattr r st.currkey st.currvalue with
           | .ok r2 => .ok { st with vdos := alSet st.vdos st.currsecname r2 }
           | .error e => .error (e, st)
       else if st.currsection = str "albserver" then
         match alGet st.albservers st.currsecname with
         | none => .error (.keyError, st)
         | some r =>
           match albSetattr r st.currkey st.currvalue with
           | .ok r2 =>
             .ok { st with albservers := alSet st.albservers st.currsecname r2 }
           | .error e => .error (e, st)
       else .ok st
     else .ok st : Except (ConfErr × ConfState) ConfState)
  with
  | .ok st2 => .ok { st2 with currkey := [], currvalue := [] }
  | .error e => .error e

/-- Dispatch one expat event to the three handlers. -/
def readEvent (st : ConfState) : XmlEvent → Except (ConfErr × ConfState) ConfState
  | .startElem name attrs => readStartElement st name attrs
  | .chardata s => .ok (readCharData st s)
  | .endElem name => readEndElement st name

/-- `Configuration._read`'s parse loop: fold the event stream, stopping at
the first raised error (the error carries the object state at the raise,
since the exception propagates out of `ParseFile`). -/
def readEvents : List XmlEvent → ConfState → Except (ConfErr × ConfState) ConfState
  | [], st => .ok st
  | e :: rest, st =>
    match readEvent st e with
    | .ok st2 => readEvents rest st2
    | .error err => .error err

/-! ### The persisted document and its expat event stream

`Configuration.persist` writes, for each service dictionary in iteration
order, a section element carrying the service name as an attribute and one
child element `<key>str(value)</key>` per `getKeys()` entry, inside a
`vdoconfig` root carrying the schema version.  The XML declaration and
DOCTYPE lines produce no handler events; the newline-and-indent layout
between elements arrives as single character-data runs (expat is created
with `buffer_text = True`); attribute and element text free of
XML-reserved characters and line separators arrives verbatim, and empty
element text produces no character-data event at all.
-/

/-- The structured content `persist` writes for one `vdo` section:
`(key, str(value))` for every key of `getKeys()`, in order; `none` models
the `AttributeError` when no logical volume is attached. -/
def persistVdoPairs (r : VdoServiceRec) : Option (List (Str × Str)) :=
  vdoGetKeys.mapM (fun k => (vdoRender r k).map (fun v => (k, v)))

/-- The structured content `persist` writes for one `albserver` section. -/
def persistAlbPairs (r : AlbireoServiceRec) : Option (List (Str × Str)) :=
  albGetKeys.mapM (fun k => (albRender r k).map (fun v => (k, v)))

/-- The structured document `persist` writes. -/
structure ConfigDoc where
  version : Str
  vdoSections : List (Str × List (Str × Str))
  albSections : List (Str × List (Str × Str))
  deriving DecidableEq

/-- The writer's loop over one service dictionary: one section per entry,
in iteration order, failing if any record cannot be rendered. -/
def persistSections {ρ : Type} (pairsOf : ρ → Option (List (Str × Str))) :
    List (Str × ρ) → Option (List (Str × List (Str × Str)))
  | [] => some []
  | (n, r) :: tl =>
    match pairsOf r with
    | none => none
    | some ps =>
      match persistSections pairsOf tl with
      | none => none
      | some rest => some ((n, ps) :: rest)

/-- `Configuration.persist`'s document, generated from the state the
writer reads (`_schemaVersion`, `_vdos`, `_albservers`). -/
def persistDoc (version : Str) (vdos : List (Str × VdoServiceRec))
    (albs : List (Str × AlbireoServiceRec)) : Option ConfigDoc :=
  match persistSections persistVdoPairs vdos, persistSections persistAlbPairs albs with
  | some vs, some als => some ⟨version, vs, als⟩
  | _, _ => none

/-- The expat events for one `    <key>value</key>` line (preceded by the
newline-and-indent run that separates it from the previous element). -/
def kvEvents (k v : Str) : List XmlEvent :=
  XmlEvent.chardata (str "\n    ") :: XmlEvent.startElem k [] ::
    ((if v = [] then [] else [XmlEvent.chardata v]) ++ [XmlEvent.endElem k])

/-- The expat events for one service section (`tag` is `vdo`/`albserver`,
`attr` is `name`/`uri`). -/
def sectionEvents (tag attr n : Str) (ps : List (Str × Str)) : List XmlEvent :=
  XmlEvent.chardata (str "\n  ") :: XmlEvent.startElem tag [(attr, n)] ::
    (ps.flatMap (fun kv => kvEvents kv.1 kv.2) ++
      [XmlEvent.chardata (str "\n  "), XmlEvent.endElem tag])

/-- The full event stream expat delivers for a persisted document. -/
def docEvents (d : ConfigDoc) : List XmlEvent :=
  XmlEvent.startElem (str "vdoconfig") [(str "version", d.version)] ::
    (d.vdoSections.flatMap (fun s => sectionEvents (str "vdo") (str "name") s.1 s.2) ++
      d.albSections.flatMap
        (fun s => sectionEvents (str "albserver") (str "uri") s.1 s.2) ++
      [XmlEvent.chardata (str "\n"), XmlEvent.endElem (str "vdoconfig")])

/-- `Configuration.__init__` followed by `__enter__`: empty dictionaries,
schema version `1.0`, clean, with the file handle open. -/
def confInit (readonly : Bool) : ConfState where
  vdos := []
  albservers := []
  schemaVersion := str "1.0"
  dirty := false
  readonly := readonly
  fhOpen := true
  currsection := []
  currsecname := []
  currkey := []
  currvalue := []

/-! ### Round-trip of one service record -/

/-- Characters that survive the XML layer verbatim: not markup-reserved
and not line separators (the round-trip claim's precondition). -/
def xmlSafe (s : Str) : Bool :=
  s.all fun c => !(c = '<' || c = '>' || c = '&' || c = '"' || c = '\n' || c = '\r')

/-- A `VdoService` record that `persist` can write and the claim's
precondition admits: size quantities hold double-representable byte counts
(every value the `SizeString` constructor produces is one), a validated
logical volume is attached, and free-text values are XML-safe. -/
def VdoValid (r : VdoServiceRec) : Prop :=
  Rep53 r.blockMapCacheSize ∧ Rep53 r.logicalSize ∧ Rep53 r.physicalSize ∧
  Rep53 r.readCacheSize ∧ Rep53 r.reserveSize ∧
  (∃ p, r.logicalVolume = some p ∧ lvAccepts p = true ∧ xmlSafe p = true) ∧
  xmlSafe r.name = true ∧ xmlSafe r.mdRaid5Mode = true ∧
  xmlSafe r.server = true ∧ xmlSafe r.writePolicy = true

/-- An `AlbireoService` record that `persist` can write and the claim's
precondition admits. -/
def AlbValid (r : AlbireoServiceRec) : Prop :=
  Rep53 r.size ∧
  (∃ p, r.logicalVolume = some p ∧ lvAccepts p = true ∧ xmlSafe p = true) ∧
  xmlSafe r.name = true ∧ xmlSafe r.indexPath = true ∧
  xmlSafe r.memory = true ∧ xmlSafe r.networkSpec = true

/-- Sequential `setattr` application, as `_read_endElement` performs it
key by key over a section's children. -/
def applyPairs {α : Type} (setf : α → Str → Str → Except ConfErr α) (r : α) :
    List (Str × Str) → Except ConfErr α
  | [] => .ok r
  | (k, v) :: rest =>
    match setf r k v with
    | .ok r2 => applyPairs setf r2 rest
    | .error e => .error e

/-- The pairs `persist` writes for a `vdo` section whose record carries
the logical volume path `p`, spelled out. -/
def vdoPairs (r : VdoServiceRec) (p : Str) : List (Str × Str) :=
  [(str "blockMapCacheSize", sizeStringAsInteger r.blockMapCacheSize),
   (str "blockMapPageSize", intRender r.blockMapPageSize),
   (str "enableCompression", boolRender r.enableCompression),
   (str "enableDeduplication", boolRender r.enableDeduplication),
   (str "enabled", boolRender r.enabled),
   (str "logicalBlockSize", intRender r.logicalBlockSize),
   (str "logicalSize", sizeStringAsInteger r.logicalSize),
   (str "logicalVolumePath", p),
   (str "mdRaid5Mode", r.mdRaid5Mode),
   (str "physicalBlockSize", intRender r.physicalBlockSize),
   (str "physicalSize", sizeStringAsInteger r.physicalSize),
   (str "readCacheSize", sizeStringAsInteger r.readCacheSize),
   (str "recoveryScanRate", intRender r.recoveryScanRate),
   (str "recoverySweepRate", intRender r.recoverySweepRate),
   (str "reserveSize", sizeStringAsInteger r.reserveSize),
   (str "server", r.server),
   (str "writePolicy", r.writePolicy)]

/-- The pairs `persist` writes for an `albserver` section whose record
carries the logical volume path `p`, spelled out. -/
def albPairs (r : AlbireoServiceRec) (p : Str) : List (Str × Str) :=
  [(str "cfreq", intRender r.cfreq),
   (str "enabled", boolRender r.enabled),
   (str "indexPath", r.indexPath),
   (str "logicalVolumePath", p),
   (str "memory", r.memory),
   (str "networkSpec", r.networkSpec),
   (str "size", sizeStringAsInteger r.size),
   (str "sparse", boolRender r.sparse),
   (str "udsParallelFactor", intRender r.udsParallelFactor)]

/-! ### Command (bin/vdomgmnt/Command.py)

A run attempt either spawns the process and observes its return code
(`__call__` after `Popen` succeeds, or `mock`), or fails to spawn
(`OSError`, handled by `_setFromException`).  `_setExitStatus` derives the
status text from the exit code; `_setFromException` synthesizes both from
the `OSError`'s errno and message.
-/

/-- The status text for exit code 0 (the source's spelling, typo and
all). -/
def successMsg (cmdname : Str) : Str := cmdname ++ str ": command succeded"

/-- The status text for a negative (signal) exit code. -/
def signalMsg (cmdname : Str) (sig : Int) : Str :=
  cmdname ++ (str ": command failed, signal " ++ intRender sig)

/-- The status text for a positive exit status. -/
def failedMsg (cmdname : Str) (status : Int) : Str :=
  cmdname ++ (str ": command failed, exit status " ++ intRender status)

/-- The status text `_setFromException` synthesizes on a spawn failure. -/
def spawnFailMsg (cmdname strerror : Str) : Str :=
  cmdname ++ (str ": command failed: " ++ strerror)

/-- `Command._setExitStatus`. -/
def setExitStatus (cmdname : Str) (exitCode : Int) : Str :=
  if exitCode < 0 then signalMsg cmdname (-exitCode)
  else if exitCode = 0 then successMsg cmdname
  else failedMsg cmdname exitCode

/-- The `(exitCode, exitStatus)` pair after a run attempt. -/
structure CmdResult where
  exitCode : Int
  exitStatus : Str
  deriving DecidableEq

/-- How a run attempt ended: the spawned process returned a code, or the
spawn itself failed with an `OSError` carrying `(errno, strerror)`. -/
inductive RunOutcome where
  | completed (returncode : Int)
  | spawnFailure (err : Nat) (strerror : Str)

/-- The recorded result of a run attempt: `__call__` sets
`exitCode = p.returncode` then `_setExitStatus()`; on `OSError` it calls
`_setFromException`, which sets `exitCode = (err >> 8) & 0xff` and the
synthesized failure text.  (`mock` also runs the `_setExitStatus` path.) -/
def runAttemptResult (cmdname : Str) : RunOutcome → CmdResult
  | .completed rc => ⟨rc, setExitStatus cmdname rc⟩
  | .spawnFailure err s => ⟨Int.ofNat ((err >>> 8) &&& 255), spawnFailMsg cmdname s⟩

/-- The consistency property claimed of every run attempt: the status text
is the success text exactly when the code is 0, a signal text exactly when
it is negative, and an exit-status failure text exactly when it is
positive. -/
def statusConsistent (cmdname : Str) (res : CmdResult) : Prop :=
  (res.exitStatus = successMsg cmdname ↔ res.exitCode = 0) ∧
  ((∃ s, res.exitStatus = signalMsg cmdname s) ↔ res.exitCode < 0) ∧
  ((∃ s, res.exitStatus = failedMsg cmdname s) ↔ 0 < res.exitCode)

/-- `Command.waitFor`'s timeout error text. -/
def timedOutMsg (cmdname : Str) (retries : Nat) : Str :=
  cmdname ++ (str ": timed out after " ++ natRender retries ++ str " seconds")

/-- The retry loop of `Command.waitFor`: run, and on failure sleep one
second and retry; `outcome i` is whether the `i`-th invocation of the
command succeeds.  Returns (success, runs made, sleeps made). -/
def waitForAux (outcome : Nat → Bool) : Nat → Nat → Bool × Nat × Nat
  | _, 0 => (false, 0, 0)
  | i, fuel + 1 =>
    if outcome i then (true, 1, 0)
    else
      let r := waitForAux outcome (i + 1) fuel
      (r.1, r.2.1 + 1, r.2.2 + 1)

/-- `Command.waitFor(retries)`: a no-op under `noRun`, otherwise at most
`retries` runs at one-second spacing, raising the timed-out `CommandError`
when the budget is exhausted.  Returns the raised error (if any) together
with the number of runs and of one-second sleeps performed. -/
def waitFor (cmdname : Str) (noRun : Bool) (retries : Nat) (outcome : Nat → Bool) :
    Except Str Unit × Nat × Nat :=
  if noRun then (.ok (), 0, 0)
  else
    match waitForAux outcome 0 retries with
    | (true, runs, sleeps) => (.ok (), runs, sleeps)
    | (false, runs, sleeps) => (.error (timedOutMsg cmdname retries), runs, sleeps)

/-! ### VdoService.growPhysical (bin/vdomgmnt/VdoService.py)

The environment records the outcome of each external command; the result
records the return value, the `physicalSize` attribute after the call, and
the ordered trace of external actions performed.
-/

/-- The external actions `growPhysical` can perform. -/
inductive GrowAction where
  | extendLv
  | suspendTarget
  | reconfigure
  | resumeTarget
  | reduceLv (bytes : Nat)
  deriving DecidableEq

/-- Outcomes of the external commands `growPhysical` may issue.
`extendResult` is the rounded size `LogicalVolume.extend` returns when it
succeeds. -/
structure GrowEnv where
  extendOk : Bool
  extendResult : Nat
  suspendOk : Bool
  reconfigOk : Bool
  resumeOk : Bool
  deriving DecidableEq

/-- The observable outcome of one `growPhysical` call. -/
structure GrowResult where
  retval : Nat
  physicalSize : Nat
  trace : List GrowAction
  deriving DecidableEq

/-- `VdoService.growPhysical`: extend (abort on failure); suspend (on
failure reduce back and abort); send the reconfigure message inside
`try/except/finally` — on success record the new `physicalSize` and set
`retval = 0`, on failure only log; resume in the `finally` — a resume
failure returns 1 immediately; finally, if the reconfigure had failed,
reduce the volume back to the recorded `physicalSize`. -/
def vdoGrowPhysical (physicalSize : Nat) (env : GrowEnv) : GrowResult :=
  if !env.extendOk then ⟨1, physicalSize, [.extendLv]⟩
  else if !env.suspendOk then
    ⟨1, physicalSize, [.extendLv, .suspendTarget, .reduceLv physicalSize]⟩
  else if env.reconfigOk then
    if !env.resumeOk then
      ⟨1, env.extendResult, [.extendLv, .suspendTarget, .reconfigure, .resumeTarget]⟩
    else
      ⟨0, env.extendResult, [.extendLv, .suspendTarget, .reconfigure, .resumeTarget]⟩
  else
    if !env.resumeOk then
      ⟨1, physicalSize, [.extendLv, .suspendTarget, .reconfigure, .resumeTarget]⟩
    else
      ⟨1, physicalSize,
        [.extendLv, .suspendTarget, .reconfigure, .resumeTarget,
          .reduceLv physicalSize]⟩

/-! ### VdoService.start and AlbireoService.start -/

/-- A command invocation succeeds when `noRun` is set (the `__call__`
short-circuit) or the environment says it does. -/
def runOk (noRun ok : Bool) : Bool := noRun || ok

/-- The external actions `VdoService.start` can perform. -/
inductive VdoStartAction where
  | kmsStart
  | activateLv
  | rebuildStats
  | forceRebuild
  | dmsetupCreate
  | compressionOn
  deriving DecidableEq

/-- The inputs of one `VdoService.start` call: the service's `enabled` and
compression flags, the `running()` probe, the global `noRun` mode, the two
rebuild arguments, and the outcome of each external command. -/
structure VdoStartEnv where
  enabled : Bool
  running : Bool
  noRun : Bool
  kmsModprobeOk : Bool
  rebuildStatistics : Bool
  forceRebuild : Bool
  rebuildStatsOk : Bool
  forceRebuildOk : Bool
  dmsetupOk : Bool
  enableCompression : Bool
  compressionOk : Bool
  deriving DecidableEq

/-- The tail of `VdoService.start` after the optional rebuild pre-step:
`dmsetup create` (failure caught by the outer `except` → ERROR), then the
compression extension point if configured (failure → ERROR), else
SUCCESS.  (The positional parameter table passed to `dmsetup` is opaque
command text; the `dmsetupCreate` action stands for its registration.) -/
def vdoStartTail (env : VdoStartEnv) (tr : List VdoStartAction) :
    Nat × List VdoStartAction :=
  let tr3 := tr ++ [VdoStartAction.dmsetupCreate]
  if !(runOk env.noRun env.dmsetupOk) then (2, tr3)
  else if env.enableCompression then
    let tr4 := tr3 ++ [VdoStartAction.compressionOn]
    if !(runOk env.noRun env.compressionOk) then (2, tr4) else (0, tr4)
  else (0, tr3)

/-- `VdoService.start`: SUCCESS if disabled; ALREADY if `running()` and
not in `noRun` mode; ERROR if the kernel-module service fails to start;
then activate the volume, run the optional statistics/metadata rebuild
pre-step (a `_forceRebuild` failure returns ERROR from the inner
`except`), and the `dmsetup`/compression tail. -/
def vdoStart (env : VdoStartEnv) : Nat × List VdoStartAction :=
  if !env.enabled then (0, [])
  else if env.running && !env.noRun then (1, [])
  else if !(runOk env.noRun env.kmsModprobeOk) then (2, [.kmsStart])
  else
    let tr1 := [VdoStartAction.kmsStart, VdoStartAction.activateLv]
    if env.rebuildStatistics then
      if !(runOk env.noRun env.rebuildStatsOk) then (2, tr1 ++ [.rebuildStats])
      else vdoStartTail env (tr1 ++ [.rebuildStats])
    else if env.forceRebuild then
      if !(runOk env.noRun env.forceRebuildOk) then (2, tr1 ++ [.forceRebuild])
      else vdoStartTail env (tr1 ++ [.forceRebuild])
    else vdoStartTail env tr1

/-- The external actions `AlbireoService.start` can perform. -/
inductive AlbStartAction where
  | activateLv
  | mountIndex
  | albserverLaunch
  | umountIndex
  | albping
  deriving DecidableEq

/-- The inputs of one `AlbireoService.start` call: `enabled`, the
`running()` probe (`_getPid() != 0`), `noRun`, whether the index path is
already a mount point, whether a `readyCmd` was supplied, and the outcome
of each external command. -/
structure AlbStartEnv where
  enabled : Bool
  running : Bool
  noRun : Bool
  isMounted : Bool
  mountOk : Bool
  albserverOk : Bool
  readyCmd : Bool
  pingOk : Bool
  deriving DecidableEq

/-- `AlbireoService.start`: SUCCESS if disabled; ALREADY if running and
not in `noRun` mode; mount the backing volume if not mounted (failure →
ERROR); launch `albserver` (failure → unmount if we mounted, ERROR); with
no `readyCmd`, poll with `albping --index` under `waitFor` (failure →
ERROR); else SUCCESS. -/
def albStart (env : AlbStartEnv) : Nat × List AlbStartAction :=
  if !env.enabled then (0, [])
  else if env.running && !env.noRun then (1, [])
  else
    let mountTrace : Bool × List AlbStartAction × Bool :=
      if !env.isMounted then
        if !(runOk env.noRun env.mountOk) then
          (false, [AlbStartAction.activateLv, AlbStartAction.mountIndex], true)
        else (true, [AlbStartAction.activateLv, AlbStartAction.mountIndex], false)
      else (false, [], false)
    if mountTrace.2.2 then (2, mountTrace.2.1)
    else
      let tr1 := mountTrace.2.1 ++ [AlbStartAction.albserverLaunch]
      if !(runOk env.noRun env.albserverOk) then
        (2, if mountTrace.1 then tr1 ++ [AlbStartAction.umountIndex] else tr1)
      else if !env.readyCmd then
        let tr2 := tr1 ++ [AlbStartAction.albping]
        if !(runOk env.noRun env.pingOk) then (2, tr2) else (0, tr2)
      else (0, tr1)

/-! ### VdoService.create and LogicalVolume.create -/

/-- The external actions `VdoService.create` can perform. -/
inductive CreateAction where
  | lvcreate
  | reduceLv (bytes : Nat)
  | vdoformat
  | removeLv
  deriving DecidableEq

/-- The inputs of one `VdoService.create` call: `noRun`, the outcome of
`LogicalVolume._physicalSizeCheck` (which raises `ArgumentError` past the
`CommandError` handler), the `lvcreate` outcome, the realized size
`getSize()` reads back from the volume manager, and the formatter
outcome. -/
structure CreateEnv where
  noRun : Bool
  sizeCheckOk : Bool
  lvcreateOk : Bool
  realizedBytes : Nat
  formatOk : Bool
  deriving DecidableEq

/-- How `LogicalVolume.create` ends: an uncaught `ArgumentError` from the
size check, a `CommandError` from `lvcreate`, or success with the rounded
size. -/
inductive LvCreateResult where
  | argErr
  | cmdErr (trace : List CreateAction)
  | ok (size : Nat) (trace : List CreateAction)
  deriving DecidableEq

/-- `LogicalVolume.create` followed by `_roundSize`: run `lvcreate`, read
the realized size back (`getSize()`; under `noRun` the recorded request),
and round it down to a block-size multiple, reducing the volume when there
is slop (the rounded size goes through `SizeString(str(n) + 'B')`). -/
def lvCreate (requestedBytes blockSize : Nat) (env : CreateEnv) : LvCreateResult :=
  if !env.sizeCheckOk then .argErr
  else if !(runOk env.noRun env.lvcreateOk) then .cmdErr [.lvcreate]
  else
    let realized := if env.noRun then requestedBytes else env.realizedBytes
    let slop := realized % blockSize
    if slop = 0 then .ok realized [.lvcreate]
    else
      let rounded := (sizeStringParse (natRender (realized - slop) ++ ['B'])).getD 0
      .ok rounded [.lvcreate, .reduceLv rounded]

/-- The observable outcome of one `VdoService.create` call. -/
structure CreateResult where
  code : Nat
  physicalSize : Nat
  logicalSize : Nat
  trace : List CreateAction
  deriving DecidableEq

/-- `VdoService.create`: create the backing volume (a `CommandError` is
caught → ERROR with nothing rolled back; the size-check `ArgumentError`
propagates, modelled by `.error`); record the realized rounded size as
`physicalSize`; default an unset (zero) `logicalSize` to it and round the
logical size down to the block size; format (failure → best-effort
`lvremove`, ERROR); else SUCCESS. -/
def vdoCreate (logicalSize0 physicalSizeReq blockSize : Nat) (env : CreateEnv) :
    Except Unit CreateResult :=
  match lvCreate physicalSizeReq blockSize env with
  | .argErr => .error ()
  | .cmdErr tr => .ok ⟨2, physicalSizeReq, logicalSize0, tr⟩
  | .ok newSize tr =>
    let ls1 := if logicalSize0 = 0 then newSize else logicalSize0
    let ls2 := ls1 / blockSize * blockSize
    let tr2 := tr ++ [CreateAction.vdoformat]
    if !(runOk env.noRun env.formatOk) then
      .ok ⟨2, newSize, ls2, tr2 ++ [CreateAction.removeLv]⟩
    else .ok ⟨0, newSize, ls2, tr2⟩

/-! ### Configuration.addVdo / addAlbserver -/

/-- `Configuration.haveVdo`. -/
def haveVdo (st : ConfState) (name : Str) : Bool := (alGet st.vdos name).isSome

/-- `Configuration.haveAlbserver`. -/
def haveAlbserver (st : ConfState) (name : Str) : Bool :=
  (alGet st.albservers name).isSome

/-- `Configuration.addVdo`: `_assertCanModify` (an assertion failure,
modelled by `none`, when the file is closed or the store read-only); with
`replace` unset and the name present, return `False` without touching
anything; otherwise install the record and mark the store dirty. -/
def addVdo (st : ConfState) (name : Str) (vdo : VdoServiceRec) (replace : Bool) :
    Option (Bool × ConfState) :=
  if !st.fhOpen || st.readonly then none
  else if !replace && haveVdo st name then some (false, st)
  else some (true, { st with vdos := alSet st.vdos name vdo, dirty := true })

/-- `Configuration.addAlbserver`, symmetrically. -/
def addAlbserver (st : ConfState) (name : Str) (alb : AlbireoServiceRec)
    (replace : Bool) : Option (Bool × ConfState) :=
  if !st.fhOpen || st.readonly then none
  else if !replace && haveAlbserver st name then some (false, st)
  else some (true, { st with albservers := alSet st.albservers name alb, dirty := true })

/-- Modelled from the claim's words (C8), for comparison with the code's
`lvAccepts`: a `/dev/` prefix, a nonempty group name, a separator, and a
nonempty volume name with no further separators. -/
def claimedLvShape (p : Str) : Bool :=
  p.take 5 == str "/dev/" &&
    (match
      ((p.drop 5).splitOn '/' : List Str)
    with
    | [g, v] => !g.isEmpty && !v.isEmpty
    | _ => false)

/-- A small populated open writable store for witnesses. -/
def demoConfState : ConfState :=
  ConfState.mk [(str "vdo1", vdoFresh (str "vdo1"))]
    [(str "dedupe://localhost:8000", albFresh (str "dedupe://localhost:8000"))]
    (str "1.0") false false true [] [] [] []

/-- A first-start environment: enabled, not yet running, all commands
succeed, no rebuild, no compression. -/
def demoVdoStartFirst : VdoStartEnv :=
  VdoStartEnv.mk true false false true false false true true true false true

/-- The same environment after the device came up: `running()` now true. -/
def demoVdoStartSecond : VdoStartEnv :=
  VdoStartEnv.mk true true false true false false true true true false true

/-- A first-start environment for the index server. -/
def demoAlbStartFirst : AlbStartEnv :=
  AlbStartEnv.mk true false false false true true false true

/-- The same environment with the server's pid file now live. -/
def demoAlbStartSecond : AlbStartEnv :=
  AlbStartEnv.mk true true false false true true false true

/-- A create environment: simulate off, size check passes, both external
steps succeed, and LVM realizes 20 GiB plus 1 KiB of slop. -/
def demoCreateEnv : CreateEnv := CreateEnv.mk false true true 21474837504 true

/-- A vdo record with a validated backing volume, for witnesses. -/
def demoVdoRec : VdoServiceRec :=
  { vdoFresh (str "vdo1") with
    logicalVolume := some (str "/dev/vdovg/vdo1-backing")
    server := str "dedupe://localhost:8000"
    physicalSize := 21474836480
    logicalSize := 21474836480 }

/-- An albserver record with a validated index volume, for witnesses. -/
def demoAlbRec : AlbireoServiceRec :=
  { albFresh (str "dedupe://localhost:8000") with
    logicalVolume := some (str "/dev/vdovg/vdo1-index")
    networkSpec := str "localhost:8000"
    indexPath := str "/mnt/dedupe-index-vdo1"
    size := 21474836480 }

theorem digitChar_toNat {d : Nat} (h : d < 10) : (digitChar d).toNat = 48 + d := by
  interval_cases d <;> rfl

theorem digitChar_isDigit {d : Nat} (h : d < 10) : (digitChar d).isDigit = true := by
  interval_cases d <;> rfl

theorem natRenderAux_spec :
    ∀ fuel n, n ≤ fuel →
      decimalFold (natRenderAux fuel n) = n ∧
      (natRenderAux fuel n).all Char.isDigit = true := by
  intro fuel
  induction fuel with
  | zero => intro n hn; interval_cases n; exact ⟨rfl, rfl⟩
  | succ fuel ih =>
    intro n hn
    by_cases h0 : n = 0
    · subst h0; exact ⟨rfl, rfl⟩
    · have hdiv : n / 10 ≤ fuel := by
        have : n / 10 < n := Nat.div_lt_self (Nat.pos_of_ne_zero h0) (by omega)
        omega
      obtain ⟨ihf, iha⟩ := ih (n / 10) hdiv
      constructor
      · show decimalFold (natRenderAux (fuel + 1) n) = n
        simp only [natRenderAux, if_neg h0]
        unfold decimalFold
        rw [List.foldl_append]
        unfold decimalFold at ihf
        rw [ihf]
        simp only [List.foldl_cons, List.foldl_nil]
        rw [digitChar_toNat (Nat.mod_lt n (by omega))]
        omega
      · show (natRenderAux (fuel + 1) n).all Char.isDigit = true
        simp only [natRenderAux, if_neg h0]
        rw [List.all_append]
        rw [iha]
        simp [digitChar_isDigit (Nat.mod_lt n (by omega))]

theorem decimalParse_natRender (n : Nat) : decimalParse (natRender n) = some n := by
  by_cases h0 : n = 0
  · subst h0; rfl
  · have hne : natRenderAux (n + 1) n ≠ [] := by
      simp only [natRenderAux, if_neg h0]
      simp
    obtain ⟨hf, ha⟩ := natRenderAux_spec (n + 1) n (by omega)
    unfold natRender decimalParse
    rw [if_neg h0, if_pos ⟨hne, ha⟩, hf]

theorem fl53_exact {m k : Nat} (hm : m < 2 ^ 53) : fl53 (m * 2 ^ k) = m * 2 ^ k := by
  unfold fl53
  by_cases hlt : m * 2 ^ k < 2 ^ 53
  · rw [if_pos hlt]
  · have hn0 : m * 2 ^ k ≠ 0 := by
      intro h; apply hlt
      rw [h]; positivity
    have hlog : Nat.log2 (m * 2 ^ k) < 53 + k := by
      rw [Nat.log2_lt hn0]
      calc m * 2 ^ k < 2 ^ 53 * 2 ^ k :=
            (Nat.mul_lt_mul_right (Nat.pos_pow_of_pos k (by omega))).mpr hm
        _ = 2 ^ (53 + k) := by rw [← pow_add]
    have he : Nat.log2 (m * 2 ^ k) - 52 ≤ k := by omega
    have hdvd : 2 ^ (Nat.log2 (m * 2 ^ k) - 52) ∣ m * 2 ^ k :=
      Dvd.dvd.mul_left (pow_dvd_pow 2 he) m
    have hr : m * 2 ^ k % 2 ^ (Nat.log2 (m * 2 ^ k) - 52) = 0 := by
      obtain ⟨c, hc⟩ := hdvd
      nth_rewrite 1 [hc]
      rw [Nat.mul_mod_right]
    have hhalf : 0 < 2 ^ (Nat.log2 (m * 2 ^ k) - 52 - 1) :=
      Nat.pos_pow_of_pos _ (by omega)
    rw [if_neg hlt, if_neg (by rw [hr]; omega), Nat.div_mul_cancel hdvd]

theorem fl53_of_rep {n : Nat} (h : Rep53 n) : fl53 n = n := by
  obtain ⟨m, k, hm, rfl⟩ := h
  exact fl53_exact hm

theorem rep53_div {b j : Nat} (h : Rep53 b) (hd : 2 ^ j ∣ b) :
    Rep53 (b / 2 ^ j) := by
  obtain ⟨m, k, hm, rfl⟩ := h
  by_cases hj : j ≤ k
  · refine ⟨m, k - j, hm, ?_⟩
    rw [Nat.mul_div_assoc m (pow_dvd_pow 2 hj), Nat.pow_div hj (by omega)]
  · have hk : k ≤ j := by omega
    have hdm : 2 ^ (j - k) ∣ m := by
      have h2 : 2 ^ (j - k) * 2 ^ k ∣ m * 2 ^ k := by
        rw [← pow_add, Nat.sub_add_cancel hk]; exact hd
      exact (Nat.mul_dvd_mul_iff_right (Nat.pos_pow_of_pos k (by omega))).mp h2
    refine ⟨m / 2 ^ (j - k), 0, ?_, ?_⟩
    · exact lt_of_le_of_lt (Nat.div_le_self _ _) hm
    · rw [pow_zero, Nat.mul_one]
      rw [show (2 : Nat) ^ j = 2 ^ k * 2 ^ (j - k) by
        rw [← pow_add, Nat.add_sub_cancel' hk]]
      rw [show m * 2 ^ k = 2 ^ k * m by ring]
      exact Nat.mul_div_mul_left m (2 ^ (j - k)) (Nat.pos_pow_of_pos k (by omega))

theorem sizeStringParse_render_suffix {b num d : Nat} {c : Char}
    (hmul : multiplier (charLower c) = some d)
    (hnum : fl53 num = num) (hval : num * d = b) :
    sizeStringParse (natRender num ++ [c]) = some b := by
  simp only [sizeStringParse, List.getLast?_concat, List.dropLast_concat, hmul,
    atofDigits, decimalParse_natRender, Option.map_some', hnum, hval]

theorem sizeString_roundtrip {b : Nat} (h : Rep53 b) :
    sizeStringParse (sizeStringAsInteger b) = some b := by
  by_cases hb0 : b = 0
  · subst hb0; rfl
  · unfold sizeStringAsInteger
    rw [if_neg hb0]
    by_cases h60 : b % 1152921504606846976 = 0
    · rw [if_pos h60]
      have hdvd : 2 ^ 60 ∣ b := Nat.dvd_of_mod_eq_zero h60
      exact sizeStringParse_render_suffix (by decide)
        (fl53_of_rep (rep53_div h hdvd)) (Nat.div_mul_cancel hdvd)
    · rw [if_neg h60]
      by_cases h50 : b % 1125899906842624 = 0
      · rw [if_pos h50]
        have hdvd : 2 ^ 50 ∣ b := Nat.dvd_of_mod_eq_zero h50
        exact sizeStringParse_render_suffix (by decide)
          (fl53_of_rep (rep53_div h hdvd)) (Nat.div_mul_cancel hdvd)
      · rw [if_neg h50]
        by_cases h40 : b % 1099511627776 = 0
        · rw [if_pos h40]
          have hdvd : 2 ^ 40 ∣ b := Nat.dvd_of_mod_eq_zero h40
          exact sizeStringParse_render_suffix (by decide)
            (fl53_of_rep (rep53_div h hdvd)) (Nat.div_mul_cancel hdvd)
        · rw [if_neg h40]
          by_cases h30 : b % 1073741824 = 0
          · rw [if_pos h30]
            have hdvd : 2 ^ 30 ∣ b := Nat.dvd_of_mod_eq_zero h30
            exact sizeStringParse_render_suffix (by decide)
              (fl53_of_rep (rep53_div h hdvd)) (Nat.div_mul_cancel hdvd)
          · rw [if_neg h30]
            by_cases h20 : b % 1048576 = 0
            · rw [if_pos h20]
              have hdvd : 2 ^ 20 ∣ b := Nat.dvd_of_mod_eq_zero h20
              exact sizeStringParse_render_suffix (by decide)
                (fl53_of_rep (rep53_div h hdvd)) (Nat.div_mul_cancel hdvd)
            · rw [if_neg h20]
              by_cases h10 : b % 1024 = 0
              · rw [if_pos h10]
                have hdvd : 2 ^ 10 ∣ b := Nat.dvd_of_mod_eq_zero h10
                exact sizeStringParse_render_suffix (by decide)
                  (fl53_of_rep (rep53_div h hdvd)) (Nat.div_mul_cancel hdvd)
              · rw [if_neg h10]
                exact sizeStringParse_render_suffix (by decide)
                  (fl53_of_rep h) (Nat.mul_one b)

theorem natRender_ne_nil (n : Nat) : natRender n ≠ [] := by
  unfold natRender
  by_cases h0 : n = 0
  · simp [h0]
  · rw [if_neg h0]
    simp only [natRenderAux, if_neg h0]
    simp

theorem natRender_head_isDigit (n : Nat) :
    ∀ c rest, natRender n = c :: rest → c.isDigit = true := by
  intro c rest h
  obtain ⟨-, hall⟩ := natRenderAux_spec (n + 1) n (by omega)
  by_cases h0 : n = 0
  · subst h0
    simp only [natRender, if_pos rfl] at h
    cases h; rfl
  · unfold natRender at h
    rw [if_neg h0] at h
    rw [h] at hall
    simp only [List.all_cons, Bool.and_eq_true] at hall
    exact hall.1

theorem intParse_intRender (i : Int) : intParse (intRender i) = some i := by
  unfold intRender
  by_cases hneg : i < 0
  · rw [if_pos hneg]
    have habs : ((i.natAbs : Nat) : Int) = -i := Int.ofNat_natAbs_of_nonpos hneg.le
    simp [intParse, decimalParse_natRender, habs]
  · rw [if_neg hneg]
    obtain ⟨c, rest, hcr⟩ : ∃ c rest, natRender i.toNat = c :: rest := by
      cases h : natRender i.toNat with
      | nil => exact absurd h (natRender_ne_nil _)
      | cons c rest => exact ⟨c, rest, rfl⟩
    have hc : c.isDigit = true := natRender_head_isDigit _ _ _ hcr
    have hcne : ¬(c = '-') := by
      intro h; subst h; exact absurd hc (by decide)
    have htn : ((i.toNat : Nat) : Int) = i := Int.toNat_of_nonneg (not_lt.mp hneg)
    rw [hcr]
    simp only [intParse, if_neg hcne, ← hcr]
    simp [decimalParse_natRender, htn]

theorem boolParse_boolRender (b : Bool) : boolParse (boolRender b) = some b := by
  cases b <;> decide

theorem count_eq_one_split {c : Char} :
    ∀ l : Str, l.count c = 1 → ∃ g v : Str, c ∉ g ∧ c ∉ v ∧ l = g ++ c :: v := by
  intro l
  induction l with
  | nil => intro h; simp [List.count_nil] at h
  | cons x xs ih =>
    intro h
    by_cases hx : x = c
    · subst hx
      have hxs : xs.count x = 0 := by
        rw [List.count_cons_self] at h; omega
      exact ⟨[], xs, by simp, List.count_eq_zero.mp hxs, by simp⟩
    · have hxs : xs.count c = 1 := by
        rw [List.count_cons_of_ne (Ne.symm hx)] at h
        exact h
      obtain ⟨g, v, hg, hv, rfl⟩ := ih hxs
      exact ⟨x :: g, v, by simp [hg, Ne.symm hx], hv, by simp⟩

/-- The path shape the constructor accepts: a `/dev/` prefix and exactly
one further separator, splitting a (possibly empty) group name from a
(possibly empty) volume name. -/
theorem lvAccepts_iff (p : Str) :
    lvAccepts p = true ↔
      ∃ g v : Str, '/' ∉ g ∧ '/' ∉ v ∧ p = str "/dev/" ++ g ++ '/' :: v := by
  constructor
  · intro h
    simp only [lvAccepts, Bool.and_eq_true, beq_iff_eq] at h
    obtain ⟨hcount, htake⟩ := h
    have hsplit : p = p.take 5 ++ p.drop 5 := (List.take_append_drop 5 p).symm
    rw [htake] at hsplit
    have hrest : (p.drop 5).count '/' = 1 := by
      have := congrArg (List.count '/') hsplit
      rw [List.count_append] at this
      simp only [hcount] at this
      have hpre : (str "/dev/").count '/' = 2 := by decide
      omega
    obtain ⟨g, v, hg, hv, hgv⟩ := count_eq_one_split _ hrest
    refine ⟨g, v, hg, hv, ?_⟩
    rw [hsplit, hgv, List.append_assoc]
  · rintro ⟨g, v, hg, hv, rfl⟩
    simp only [lvAccepts, Bool.and_eq_true, beq_iff_eq]
    constructor
    · rw [List.count_append, List.count_append]
      rw [List.count_eq_zero.mpr hg]
      rw [List.count_cons_self, List.count_eq_zero.mpr hv]
      decide
    · rw [show str "/dev/" ++ g ++ '/' :: v = str "/dev/" ++ (g ++ '/' :: v) by
        rw [List.append_assoc]]
      rw [List.take_append_of_le_length (by decide)]
      decide

theorem alGet_alSet_self {β : Type} (l : List (Str × β)) (k : Str) (v : β) :
    alGet (alSet l k v) k = some v := by
  induction l with
  | nil => simp [alGet, alSet]
  | cons kv rest ih =>
    obtain ⟨k0, v0⟩ := kv
    by_cases hk : k = k0
    · simp [alGet, alSet, hk]
    · simp [alGet, alSet, hk, ih]

theorem alSet_alSet_self {β : Type} (l : List (Str × β)) (k : Str) (v w : β) :
    alSet (alSet l k v) k w = alSet l k w := by
  induction l with
  | nil => simp [alSet]
  | cons kv rest ih =>
    obtain ⟨k0, v0⟩ := kv
    by_cases hk : k = k0
    · simp [alSet, hk]
    · simp [alSet, hk, ih]

theorem alSet_of_get_self {β : Type} (l : List (Str × β)) (k : Str) (v : β)
    (h : alGet l k = some v) : alSet l k v = l := by
  induction l with
  | nil => simp [alGet] at h
  | cons kv rest ih =>
    obtain ⟨k0, v0⟩ := kv
    by_cases hk : k = k0
    · simp only [alGet, if_pos hk] at h
      cases h
      simp [alSet, hk]
    · simp only [alGet, if_neg hk] at h
      simp [alSet, hk, ih h]

theorem alSet_append_fresh {β : Type} (l : List (Str × β)) (k : Str) (v : β)
    (h : alGet l k = none) : alSet l k v = l ++ [(k, v)] := by
  induction l with
  | nil => simp [alSet]
  | cons kv rest ih =>
    obtain ⟨k0, v0⟩ := kv
    by_cases hk : k = k0
    · simp [alGet, hk] at h
    · simp only [alGet, if_neg hk] at h
      simp [alSet, hk, ih h]

theorem readEvents_append (l1 l2 : List XmlEvent) (st : ConfState) :
    readEvents (l1 ++ l2) st =
      match readEvents l1 st with
      | .ok st2 => readEvents l2 st2
      | .error err => .error err := by
  induction l1 generalizing st with
  | nil => simp [readEvents]
  | cons e rest ih =>
    simp only [List.cons_append, readEvents]
    cases readEvent st e with
    | ok st2 => exact ih st2
    | error err => rfl

theorem persistVdoPairs_eq (r : VdoServiceRec) (p : Str)
    (hlv : r.logicalVolume = some p) :
    persistVdoPairs r = some (vdoPairs r p) := by
  have hr : r = { r with logicalVolume := some p } := by rw [← hlv]
  rw [hr]
  rfl

theorem persistAlbPairs_eq (r : AlbireoServiceRec) (p : Str)
    (hlv : r.logicalVolume = some p) :
    persistAlbPairs r = some (albPairs r p) := by
  have hr : r = { r with logicalVolume := some p } := by rw [← hlv]
  rw [hr]
  rfl

theorem vdoSet_blockMapCacheSize (r : VdoServiceRec) (v : Str) :
    vdoSetattr r (str "blockMapCacheSize") v =
      match sizeStringParse v with
      | some b => .ok { r with blockMapCacheSize := b }
      | none => .error .badValue := rfl

theorem vdoSet_blockMapPageSize (r : VdoServiceRec) (v : Str) :
    vdoSetattr r (str "blockMapPageSize") v =
      match intParse v with
      | some i => .ok { r with blockMapPageSize := i }
      | none => .error .badValue := rfl

theorem vdoSet_enableCompression (r : VdoServiceRec) (v : Str) :
    vdoSetattr r (str "enableCompression") v =
      match boolParse v with
      | some b => .ok { r with enableCompression := b }
      | none => .error .badValue := rfl

theorem vdoSet_enableDeduplication (r : VdoServiceRec) (v : Str) :
    vdoSetattr r (str "enableDeduplication") v =
      match boolParse v with
      | some b => .ok { r with enableDeduplication := b }
      | none => .error .badValue := rfl

theorem vdoSet_enabled (r : VdoServiceRec) (v : Str) :
    vdoSetattr r (str "enabled") v =
      match boolParse v with
      | some b => .ok { r with enabled := b }
      | none => .error .badValue := rfl

theorem vdoSet_logicalBlockSize (r : VdoServiceRec) (v : Str) :
    vdoSetattr r (str "logicalBlockSize") v =
      match intParse v with
      | some i => .ok { r with logicalBlockSize := i }
      | none => .error .badValue := rfl

theorem vdoSet_logicalSize (r : VdoServiceRec) (v : Str) :
    vdoSetattr r (str "logicalSize") v =
      match sizeStringParse v with
      | some b => .ok { r with logicalSize := b }
      | none => .error .badValue := rfl

theorem vdoSet_logicalVolumePath (r : VdoServiceRec) (v : Str) :
    vdoSetattr r (str "logicalVolumePath") v =
      if lvAccepts v then .ok { r with logicalVolume := some v }
      else .error .badValue := rfl

theorem vdoSet_mdRaid5Mode (r : VdoServiceRec) (v : Str) :
    vdoSetattr r (str "mdRaid5Mode") v = .ok { r with mdRaid5Mode := v } := rfl

theorem vdoSet_physicalBlockSize (r : VdoServiceRec) (v : Str) :
    vdoSetattr r (str "physicalBlockSize") v =
      match intParse v with
      | some i => .ok { r with physicalBlockSize := i }
      | none => .error .badValue := rfl

theorem vdoSet_physicalSize (r : VdoServiceRec) (v : Str) :
    vdoSetattr r (str "physicalSize") v =
      match sizeStringParse v with
      | some b => .ok { r with physicalSize := b }
      | none => .error .badValue := rfl

theorem vdoSet_readCacheSize (r : VdoServiceRec) (v : Str) :
    vdoSetattr r (str "readCacheSize") v =
      match sizeStringParse v with
      | some b => .ok { r with readCacheSize := b }
      | none => .error .badValue := rfl

theorem vdoSet_recoveryScanRate (r : VdoServiceRec) (v : Str) :
    vdoSetattr r (str "recoveryScanRate") v =
      match intParse v with
      | some i => .ok { r with recoveryScanRate := i }
      | none => .error .badValue := rfl

theorem vdoSet_recoverySweepRate (r : VdoServiceRec) (v : Str) :
    vdoSetattr r (str "recoverySweepRate") v =
      match intParse v with
      | some i => .ok { r with recoverySweepRate := i }
      | none => .error .badValue := rfl

theorem vdoSet_reserveSize (r : VdoServiceRec) (v : Str) :
    vdoSetattr r (str "reserveSize") v =
      match sizeStringParse v with
      | some b => .ok { r with reserveSize := b }
      | none => .error .badValue := rfl

theorem vdoSet_server (r : VdoServiceRec) (v : Str) :
    vdoSetattr r (str "server") v = .ok { r with server := v } := rfl

theorem vdoSet_writePolicy (r : VdoServiceRec) (v : Str) :
    vdoSetattr r (str "writePolicy") v = .ok { r with writePolicy := v } := rfl

theorem albSet_cfreq (r : AlbireoServiceRec) (v : Str) :
    albSetattr r (str "cfreq") v =
      match intParse v with
      | some i => .ok { r with cfreq := i }
      | none => .error .badValue := rfl

theorem albSet_enabled (r : AlbireoServiceRec) (v : Str) :
    albSetattr r (str "enabled") v =
      match boolParse v with
      | some b => .ok { r with enabled := b }
      | none => .error .badValue := rfl

theorem albSet_indexPath (r : AlbireoServiceRec) (v : Str) :
    albSetattr r (str "indexPath") v = .ok { r with indexPath := v } := rfl

theorem albSet_logicalVolumePath (r : AlbireoServiceRec) (v : Str) :
    albSetattr r (str "logicalVolumePath") v =
      if lvAccepts v then .ok { r with logicalVolume := some v }
      else .error .badValue := rfl

theorem albSet_memory (r : AlbireoServiceRec) (v : Str) :
    albSetattr r (str "memory") v = .ok { r with memory := v } := rfl

theorem albSet_networkSpec (r : AlbireoServiceRec) (v : Str) :
    albSetattr r (str "networkSpec") v = .ok { r with networkSpec := v } := rfl

theorem albSet_size (r : AlbireoServiceRec) (v : Str) :
    albSetattr r (str "size") v =
      match sizeStringParse v with
      | some b => .ok { r with size := b }
      | none => .error .badValue := rfl

theorem albSet_sparse (r : AlbireoServiceRec) (v : Str) :
    albSetattr r (str "sparse") v =
      match boolParse v with
      | some b => .ok { r with sparse := b }
      | none => .error .badValue := rfl

theorem albSet_udsParallelFactor (r : AlbireoServiceRec) (v : Str) :
    albSetattr r (str "udsParallelFactor") v =
      match intParse v with
      | some i => .ok { r with udsParallelFactor := i }
      | none => .error .badValue := rfl

theorem vdoRebuild (n : Str) (r : VdoServiceRec) (p : Str)
    (hname : r.name = n) (hlv : r.logicalVolume = some p)
    (hacc : lvAccepts p = true)
    (h1 : Rep53 r.blockMapCacheSize) (h2 : Rep53 r.logicalSize)
    (h3 : Rep53 r.physicalSize) (h4 : Rep53 r.readCacheSize)
    (h5 : Rep53 r.reserveSize) :
    applyPairs vdoSetattr (vdoFresh n) (vdoPairs r p) = .ok r := by
  simp only [vdoPairs, applyPairs,
    vdoSet_blockMapCacheSize, vdoSet_blockMapPageSize, vdoSet_enableCompression,
    vdoSet_enableDeduplication, vdoSet_enabled, vdoSet_logicalBlockSize,
    vdoSet_logicalSize, vdoSet_logicalVolumePath, vdoSet_mdRaid5Mode,
    vdoSet_physicalBlockSize, vdoSet_physicalSize, vdoSet_readCacheSize,
    vdoSet_recoveryScanRate, vdoSet_recoverySweepRate, vdoSet_reserveSize,
    vdoSet_server, vdoSet_writePolicy,
    sizeString_roundtrip h1, sizeString_roundtrip h2, sizeString_roundtrip h3,
    sizeString_roundtrip h4, sizeString_roundtrip h5,
    intParse_intRender, boolParse_boolRender, if_pos hacc]
  obtain ⟨name, f2, f3, f4, f5, f6, f7, f8, f9, lv, f11, f12, f13, f14, f15, f16, f17, f18⟩ := r
  simp only [VdoServiceRec.mk.injEq] at hname hlv ⊢
  subst hname
  subst hlv
  simp [vdoFresh]

theorem albRebuild (n : Str) (r : AlbireoServiceRec) (p : Str)
    (hname : r.name = n) (hlv : r.logicalVolume = some p)
    (hacc : lvAccepts p = true) (h1 : Rep53 r.size) :
    applyPairs albSetattr (albFresh n) (albPairs r p) = .ok r := by
  simp only [albPairs, applyPairs,
    albSet_cfreq, albSet_enabled, albSet_indexPath, albSet_logicalVolumePath,
    albSet_memory, albSet_networkSpec, albSet_size, albSet_sparse,
    albSet_udsParallelFactor,
    sizeString_roundtrip h1, intParse_intRender, boolParse_boolRender,
    if_pos hacc]
  obtain ⟨name, f2, f3, f4, lv, f6, f7, f8, f9, f10⟩ := r
  simp only at hname hlv ⊢
  subst hname
  subst hlv
  simp [albFresh]

theorem readEvents_cons_ok (e : XmlEvent) (t : List XmlEvent) (st st2 : ConfState)
    (h : readEvent st e = .ok st2) : readEvents (e :: t) st = readEvents t st2 := by
  simp [readEvents, h]

theorem readEvents_kv_vdo (vdos : List (Str × VdoServiceRec))
    (albs : List (Str × AlbireoServiceRec)) (ver : Str) (dir ro fh : Bool)
    (csn ck cv : Str) (k v : Str) (rest : List XmlEvent)
    (hk1 : ¬k = str "vdo") (hk2 : ¬k = [])
    (r r2 : VdoServiceRec) (hget : alGet vdos csn = some r)
    (hset : vdoSetattr r k v = .ok r2) :
    readEvents (kvEvents k v ++ rest)
        (ConfState.mk vdos albs ver dir ro fh (str "vdo") csn ck cv) =
      readEvents rest
        (ConfState.mk (alSet vdos csn r2) albs ver dir ro fh (str "vdo") csn [] []) := by
  have hend : readEvent (ConfState.mk vdos albs ver dir ro fh (str "vdo") csn k v)
      (XmlEvent.endElem k) =
      .ok (ConfState.mk (alSet vdos csn r2) albs ver dir ro fh (str "vdo") csn [] []) := by
    show readEndElement _ k = _
    simp only [readEndElement, if_neg hk1, ne_eq, hk2, not_false_eq_true, if_pos, hget, hset]
  by_cases hv : v = []
  · subst hv
    show readEvents (XmlEvent.endElem k :: rest)
        (ConfState.mk vdos albs ver dir ro fh (str "vdo") csn k []) = _
    exact readEvents_cons_ok _ _ _ _ hend
  · simp only [kvEvents, if_neg hv, List.cons_append, List.singleton_append]
    show readEvents (XmlEvent.chardata v :: XmlEvent.endElem k :: rest)
        (ConfState.mk vdos albs ver dir ro fh (str "vdo") csn k []) = _
    show readEvents (XmlEvent.endElem k :: rest)
        (ConfState.mk vdos albs ver dir ro fh (str "vdo") csn k v) = _
    exact readEvents_cons_ok _ _ _ _ hend

theorem readEvents_pairs_vdo (ps : List (Str × Str)) (rest : List XmlEvent)
    (vdos : List (Str × VdoServiceRec)) (albs : List (Str × AlbireoServiceRec))
    (ver : Str) (dir ro fh : Bool) (csn : Str) (r rF : VdoServiceRec)
    (hkeys : ∀ kv ∈ ps, ¬kv.1 = str "vdo" ∧ ¬kv.1 = [])
    (hget : alGet vdos csn = some r)
    (happly : applyPairs vdoSetattr r ps = .ok rF) :
    readEvents (ps.flatMap (fun kv => kvEvents kv.1 kv.2) ++ rest)
        (ConfState.mk vdos albs ver dir ro fh (str "vdo") csn [] []) =
      readEvents rest
        (ConfState.mk (alSet vdos csn rF) albs ver dir ro fh (str "vdo") csn [] []) := by
  induction ps generalizing vdos r with
  | nil =>
    simp only [applyPairs, Except.ok.injEq] at happly
    subst happly
    rw [alSet_of_get_self _ _ _ hget]
    simp
  | cons kv tl ih =>
    obtain ⟨k, v⟩ := kv
    obtain ⟨hk1, hk2⟩ := hkeys (k, v) (by simp)
    cases hs : vdoSetattr r k v with
    | error e =>
      simp only [applyPairs, hs] at happly
      exact absurd happly (by simp)
    | ok r2 =>
      simp only [applyPairs, hs] at happly
      simp only [List.flatMap_cons, List.append_assoc]
      rw [readEvents_kv_vdo vdos albs ver dir ro fh csn [] [] k v _ hk1 hk2 r r2 hget hs]
      rw [ih (alSet vdos csn r2) r2 (fun kv2 h2 => hkeys kv2 (by simp [h2]))
        (alGet_alSet_self vdos csn r2) happly]
      rw [alSet_alSet_self]

theorem readEvents_section_vdo (n : Str) (ps : List (Str × Str))
    (rest : List XmlEvent) (vdos : List (Str × VdoServiceRec))
    (albs : List (Str × AlbireoServiceRec)) (ver : Str) (dir ro fh : Bool)
    (csn ck cv : Str) (rF : VdoServiceRec)
    (hkeys : ∀ kv ∈ ps, ¬kv.1 = str "vdo" ∧ ¬kv.1 = [])
    (happly : applyPairs vdoSetattr (vdoFresh n) ps = .ok rF) :
    readEvents (sectionEvents (str "vdo") (str "name") n ps ++ rest)
        (ConfState.mk vdos albs ver dir ro fh [] csn ck cv) =
      readEvents rest
        (ConfState.mk (alSet vdos n rF) albs ver dir ro fh [] n [] []) := by
  simp only [sectionEvents, List.cons_append, List.append_assoc]
  show readEvents (ps.flatMap (fun kv => kvEvents kv.1 kv.2) ++
        ([XmlEvent.chardata (str "\n  "), XmlEvent.endElem (str "vdo")] ++ rest))
      (ConfState.mk (alSet vdos n (vdoFresh n)) albs ver dir ro fh (str "vdo") n [] []) = _
  rw [readEvents_pairs_vdo _ _ _ _ _ _ _ _ _ _ _ hkeys
    (alGet_alSet_self vdos n (vdoFresh n)) happly]
  rw [alSet_alSet_self]
  rfl

theorem readEvents_kv_alb (vdos : List (Str × VdoServiceRec))
    (albs : List (Str × AlbireoServiceRec)) (ver : Str) (dir ro fh : Bool)
    (csn ck cv : Str) (k v : Str) (rest : List XmlEvent)
    (hk1 : ¬k = str "albserver") (hk2 : ¬k = [])
    (r r2 : AlbireoServiceRec) (hget : alGet albs csn = some r)
    (hset : albSetattr r k v = .ok r2) :
    readEvents (kvEvents k v ++ rest)
        (ConfState.mk vdos albs ver dir ro fh (str "albserver") csn ck cv) =
      readEvents rest
        (ConfState.mk vdos (alSet albs csn r2) ver dir ro fh (str "albserver") csn [] []) := by
  have hend : readEvent (ConfState.mk vdos albs ver dir ro fh (str "albserver") csn k v)
      (XmlEvent.endElem k) =
      .ok (ConfState.mk vdos (alSet albs csn r2) ver dir ro fh (str "albserver") csn [] []) := by
    show readEndElement _ k = _
    simp only [readEndElement, if_neg hk1, ne_eq, hk2, not_false_eq_true, if_pos, hget, hset,
      if_neg (show ¬(str "albserver" = str "vdo") from by decide)]
  by_cases hv : v = []
  · subst hv
    show readEvents (XmlEvent.endElem k :: rest)
        (ConfState.mk vdos albs ver dir ro fh (str "albserver") csn k []) = _
    exact readEvents_cons_ok _ _ _ _ hend
  · simp only [kvEvents, if_neg hv, List.cons_append, List.singleton_append]
    show readEvents (XmlEvent.chardata v :: XmlEvent.endElem k :: rest)
        (ConfState.mk vdos albs ver dir ro fh (str "albserver") csn k []) = _
    show readEvents (XmlEvent.endElem k :: rest)
        (ConfState.mk vdos albs ver dir ro fh (str "albserver") csn k v) = _
    exact readEvents_cons_ok _ _ _ _ hend

theorem readEvents_pairs_alb (ps : List (Str × Str)) (rest : List XmlEvent)
    (vdos : List (Str × VdoServiceRec)) (albs : List (Str × AlbireoServiceRec))
    (ver : Str) (dir ro fh : Bool) (csn : Str) (r rF : AlbireoServiceRec)
    (hkeys : ∀ kv ∈ ps, ¬kv.1 = str "albserver" ∧ ¬kv.1 = [])
    (hget : alGet albs csn = some r)
    (happly : applyPairs albSetattr r ps = .ok rF) :
    readEvents (ps.flatMap (fun kv => kvEvents kv.1 kv.2) ++ rest)
        (ConfState.mk vdos albs ver dir ro fh (str "albserver") csn [] []) =
      readEvents rest
        (ConfState.mk vdos (alSet albs csn rF) ver dir ro fh (str "albserver") csn [] []) := by
  induction ps generalizing albs r with
  | nil =>
    simp only [applyPairs, Except.ok.injEq] at happly
    subst happly
    rw [alSet_of_get_self _ _ _ hget]
    simp
  | cons kv tl ih =>
    obtain ⟨k, v⟩ := kv
    obtain ⟨hk1, hk2⟩ := hkeys (k, v) (by simp)
    cases hs : albSetattr r k v with
    | error e =>
      simp only [applyPairs, hs] at happly
      exact absurd happly (by simp)
    | ok r2 =>
      simp only [applyPairs, hs] at happly
      simp only [List.flatMap_cons, List.append_assoc]
      rw [readEvents_kv_alb vdos albs ver dir ro fh csn [] [] k v _ hk1 hk2 r r2 hget hs]
      rw [ih (alSet albs csn r2) r2 (fun kv2 h2 => hkeys kv2 (by simp [h2]))
        (alGet_alSet_self albs csn r2) happly]
      rw [alSet_alSet_self]

theorem readEvents_section_alb (n : Str) (ps : List (Str × Str))
    (rest : List XmlEvent) (vdos : List (Str × VdoServiceRec))
    (albs : List (Str × AlbireoServiceRec)) (ver : Str) (dir ro fh : Bool)
    (csn ck cv : Str) (rF : AlbireoServiceRec)
    (hkeys : ∀ kv ∈ ps, ¬kv.1 = str "albserver" ∧ ¬kv.1 = [])
    (happly : applyPairs albSetattr (albFresh n) ps = .ok rF) :
    readEvents (sectionEvents (str "albserver") (str "uri") n ps ++ rest)
        (ConfState.mk vdos albs ver dir ro fh [] csn ck cv) =
      readEvents rest
        (ConfState.mk vdos (alSet albs n rF) ver dir ro fh [] n [] []) := by
  simp only [sectionEvents, List.cons_append, List.append_assoc]
  show readEvents (ps.flatMap (fun kv => kvEvents kv.1 kv.2) ++
        ([XmlEvent.chardata (str "\n  "), XmlEvent.endElem (str "albserver")] ++ rest))
      (ConfState.mk vdos (alSet albs n (albFresh n)) ver dir ro fh (str "albserver") n [] []) = _
  rw [readEvents_pairs_alb _ _ _ _ _ _ _ _ _ _ _ hkeys
    (alGet_alSet_self albs n (albFresh n)) happly]
  rw [alSet_alSet_self]
  rfl

theorem alGet_append_left_none {β : Type} (l1 l2 : List (Str × β)) (k : Str)
    (h : alGet l1 k = none) : alGet (l1 ++ l2) k = alGet l2 k := by
  induction l1 with
  | nil => simp
  | cons kv rest ih =>
    obtain ⟨k0, v0⟩ := kv
    by_cases hk : k = k0
    · simp [alGet, hk] at h
    · simp only [alGet, if_neg hk] at h
      simp only [List.cons_append, alGet, if_neg hk]
      exact ih h

theorem vdoPairs_map_fst (r : VdoServiceRec) (p : Str) :
    (vdoPairs r p).map Prod.fst = vdoGetKeys := rfl

theorem albPairs_map_fst (r : AlbireoServiceRec) (p : Str) :
    (albPairs r p).map Prod.fst = albGetKeys := rfl

theorem vdoGetKeys_safe : ∀ k ∈ vdoGetKeys, ¬k = str "vdo" ∧ ¬k = [] := by decide

theorem albGetKeys_safe : ∀ k ∈ albGetKeys, ¬k = str "albserver" ∧ ¬k = [] := by
  decide

theorem vdoPairs_keys (r : VdoServiceRec) (p : Str) :
    ∀ kv ∈ vdoPairs r p, ¬kv.1 = str "vdo" ∧ ¬kv.1 = [] := by
  intro kv hkv
  exact vdoGetKeys_safe kv.1
    (by rw [← vdoPairs_map_fst r p]; exact List.mem_map_of_mem _ hkv)

theorem albPairs_keys (r : AlbireoServiceRec) (p : Str) :
    ∀ kv ∈ albPairs r p, ¬kv.1 = str "albserver" ∧ ¬kv.1 = [] := by
  intro kv hkv
  exact albGetKeys_safe kv.1
    (by rw [← albPairs_map_fst r p]; exact List.mem_map_of_mem _ hkv)

theorem readEvents_vdoSections (secs : List (Str × VdoServiceRec))
    (rest : List XmlEvent) (vdos : List (Str × VdoServiceRec))
    (albs : List (Str × AlbireoServiceRec)) (ver : Str) (dir ro fh : Bool)
    (csn : Str)
    (hvalid : ∀ nr ∈ secs, VdoValid nr.2 ∧ nr.2.name = nr.1)
    (hfresh : ∀ nr ∈ secs, alGet vdos nr.1 = none)
    (hnodup : (secs.map Prod.fst).Nodup)
    (docsecs : List (Str × List (Str × Str)))
    (hdoc : persistSections persistVdoPairs secs = some docsecs) :
    ∃ csn2,
      readEvents
          (docsecs.flatMap
              (fun s => sectionEvents (str "vdo") (str "name") s.1 s.2) ++ rest)
          (ConfState.mk vdos albs ver dir ro fh [] csn [] []) =
        readEvents rest
          (ConfState.mk (vdos ++ secs) albs ver dir ro fh [] csn2 [] []) := by
  induction secs generalizing vdos csn docsecs with
  | nil =>
    simp only [persistSections, Option.some.injEq] at hdoc
    subst hdoc
    exact ⟨csn, by simp⟩
  | cons nr tl ih =>
    obtain ⟨n, r⟩ := nr
    obtain ⟨hval, hname⟩ := hvalid (n, r) (by simp)
    obtain ⟨h1, h2, h3, h4, h5, ⟨p, hlv, hacc, -⟩, -⟩ := hval
    rw [show persistSections persistVdoPairs ((n, r) :: tl) =
        match persistVdoPairs r with
        | none => none
        | some ps =>
          match persistSections persistVdoPairs tl with
          | none => none
          | some rest2 => some ((n, ps) :: rest2) from rfl] at hdoc
    rw [persistVdoPairs_eq r p hlv] at hdoc
    cases hmt : persistSections persistVdoPairs tl with
    | none => rw [hmt] at hdoc; exact absurd hdoc (by simp)
    | some dtl =>
      rw [hmt] at hdoc
      simp only [Option.some.injEq] at hdoc
      subst hdoc
      simp only [List.flatMap_cons, List.append_assoc]
      rw [readEvents_section_vdo n (vdoPairs r p) _ vdos albs ver dir ro fh csn [] []
        r (vdoPairs_keys r p) (vdoRebuild n r p hname hlv hacc h1 h2 h3 h4 h5)]
      have hgetn : alGet vdos n = none := hfresh (n, r) (by simp)
      rw [alSet_append_fresh vdos n r hgetn]
      have hnodup2 : (tl.map Prod.fst).Nodup := by
        simp only [List.map_cons, List.nodup_cons] at hnodup
        exact hnodup.2
      have hnmem : n ∉ tl.map Prod.fst := by
        simp only [List.map_cons, List.nodup_cons] at hnodup
        exact hnodup.1
      obtain ⟨csn2, hrun⟩ := ih (vdos ++ [(n, r)]) n
        (fun nr2 hmem => hvalid nr2 (List.mem_cons_of_mem _ hmem))
        (by
          intro nr2 hmem
          have hne : ¬nr2.1 = n := by
            intro he
            exact hnmem (he ▸ List.mem_map_of_mem Prod.fst hmem)
          rw [alGet_append_left_none _ _ _ (hfresh nr2 (List.mem_cons_of_mem _ hmem))]
          simp [alGet, hne])
        hnodup2 dtl hmt
      refine ⟨csn2, ?_⟩
      rw [hrun]
      simp

theorem readEvents_albSections (secs : List (Str × AlbireoServiceRec))
    (rest : List XmlEvent) (vdos : List (Str × VdoServiceRec))
    (albs : List (Str × AlbireoServiceRec)) (ver : Str) (dir ro fh : Bool)
    (csn : Str)
    (hvalid : ∀ nr ∈ secs, AlbValid nr.2 ∧ nr.2.name = nr.1)
    (hfresh : ∀ nr ∈ secs, alGet albs nr.1 = none)
    (hnodup : (secs.map Prod.fst).Nodup)
    (docsecs : List (Str × List (Str × Str)))
    (hdoc : persistSections persistAlbPairs secs = some docsecs) :
    ∃ csn2,
      readEvents
          (docsecs.flatMap
              (fun s => sectionEvents (str "albserver") (str "uri") s.1 s.2) ++ rest)
          (ConfState.mk vdos albs ver dir ro fh [] csn [] []) =
        readEvents rest
          (ConfState.mk vdos (albs ++ secs) ver dir ro fh [] csn2 [] []) := by
  induction secs generalizing albs csn docsecs with
  | nil =>
    simp only [persistSections, Option.some.injEq] at hdoc
    subst hdoc
    exact ⟨csn, by simp⟩
  | cons nr tl ih =>
    obtain ⟨n, r⟩ := nr
    obtain ⟨hval, hname⟩ := hvalid (n, r) (by simp)
    obtain ⟨h1, ⟨p, hlv, hacc, -⟩, -⟩ := hval
    rw [show persistSections persistAlbPairs ((n, r) :: tl) =
        match persistAlbPairs r with
        | none => none
        | some ps =>
          match persistSections persistAlbPairs tl with
          | none => none
          | some rest2 => some ((n, ps) :: rest2) from rfl] at hdoc
    rw [persistAlbPairs_eq r p hlv] at hdoc
    cases hmt : persistSections persistAlbPairs tl with
    | none => rw [hmt] at hdoc; exact absurd hdoc (by simp)
    | some dtl =>
      rw [hmt] at hdoc
      simp only [Option.some.injEq] at hdoc
      subst hdoc
      simp only [List.flatMap_cons, List.append_assoc]
      rw [readEvents_section_alb n (albPairs r p) _ vdos albs ver dir ro fh csn [] []
        r (albPairs_keys r p) (albRebuild n r p hname hlv hacc h1)]
      have hgetn : alGet albs n = none := hfresh (n, r) (by simp)
      rw [alSet_append_fresh albs n r hgetn]
      have hnodup2 : (tl.map Prod.fst).Nodup := by
        simp only [List.map_cons, List.nodup_cons] at hnodup
        exact hnodup.2
      have hnmem : n ∉ tl.map Prod.fst := by
        simp only [List.map_cons, List.nodup_cons] at hnodup
        exact hnodup.1
      obtain ⟨csn2, hrun⟩ := ih (albs ++ [(n, r)]) n
        (fun nr2 hmem => hvalid nr2 (List.mem_cons_of_mem _ hmem))
        (by
          intro nr2 hmem
          have hne : ¬nr2.1 = n := by
            intro he
            exact hnmem (he ▸ List.mem_map_of_mem Prod.fst hmem)
          rw [alGet_append_left_none _ _ _ (hfresh nr2 (List.mem_cons_of_mem _ hmem))]
          simp [alGet, hne])
        hnodup2 dtl hmt
      refine ⟨csn2, ?_⟩
      rw [hrun]
      simp

theorem readEvents_docEvents (version : Str) (vdos : List (Str × VdoServiceRec))
    (albs : List (Str × AlbireoServiceRec)) (ro : Bool)
    (hver : version ∈ supportedSchemaVersions)
    (hvalidV : ∀ nr ∈ vdos, VdoValid nr.2 ∧ nr.2.name = nr.1)
    (hvalidA : ∀ nr ∈ albs, AlbValid nr.2 ∧ nr.2.name = nr.1)
    (hnodupV : (vdos.map Prod.fst).Nodup)
    (hnodupA : (albs.map Prod.fst).Nodup)
    (doc : ConfigDoc) (hdoc : persistDoc version vdos albs = some doc) :
    ∃ final, readEvents (docEvents doc) (confInit ro) = .ok final ∧
      final.vdos = vdos ∧ final.albservers = albs := by
  cases hv : persistSections persistVdoPairs vdos with
  | none => rw [persistDoc, hv] at hdoc; exact absurd hdoc (by simp)
  | some vs =>
    cases ha : persistSections persistAlbPairs albs with
    | none =>
      rw [persistDoc, hv, ha] at hdoc
      exact absurd hdoc (by simp)
    | some als =>
      rw [persistDoc, hv, ha] at hdoc
      simp only [Option.some.injEq] at hdoc
      subst hdoc
      have hstep : readEvent (confInit ro)
          (XmlEvent.startElem (str "vdoconfig") [(str "version", version)]) =
          .ok (ConfState.mk [] [] version false ro true [] [] [] []) := by
        have hred : readEvent (confInit ro)
            (XmlEvent.startElem (str "vdoconfig") [(str "version", version)]) =
            (if version ∈ supportedSchemaVersions then
              .ok (ConfState.mk [] [] version false ro true [] [] [] [])
            else
              .error (ConfErr.badVersion version,
                ConfState.mk [] [] version false ro true [] [] [] [])) := rfl
        rw [hred, if_pos hver]
      rw [docEvents]
      rw [readEvents_cons_ok _ _ _ _ hstep]
      rw [List.append_assoc]
      obtain ⟨csn2, hrun⟩ := readEvents_vdoSections vdos _ [] [] version false ro true
        [] hvalidV (fun nr _ => rfl) hnodupV vs hv
      rw [hrun]
      obtain ⟨csn3, hrun2⟩ := readEvents_albSections albs _ ([] ++ vdos) [] version
        false ro true csn2 hvalidA (fun nr _ => rfl) hnodupA als ha
      rw [hrun2]
      exact ⟨_, rfl, by simp [readCharData], by simp [readCharData]⟩

theorem successMsg_ne_signalMsg (c : Str) (s : Int) : successMsg c ≠ signalMsg c s := by
  intro h
  have h2 : str ": command succeded" = str ": command failed, signal " ++ intRender s := by
    have h3 := congrArg (List.drop c.length) h
    rwa [successMsg, signalMsg, List.drop_left, List.drop_left] at h3
  have h4 := congrArg (List.take 11) h2
  rw [List.take_append_of_le_length (by decide)] at h4
  exact absurd h4 (by decide)

theorem successMsg_ne_failedMsg (c : Str) (s : Int) : successMsg c ≠ failedMsg c s := by
  intro h
  have h2 : str ": command succeded" =
      str ": command failed, exit status " ++ intRender s := by
    have h3 := congrArg (List.drop c.length) h
    rwa [successMsg, failedMsg, List.drop_left, List.drop_left] at h3
  have h4 := congrArg (List.take 11) h2
  rw [List.take_append_of_le_length (by decide)] at h4
  exact absurd h4 (by decide)

theorem signalMsg_ne_failedMsg (c : Str) (s t : Int) : signalMsg c s ≠ failedMsg c t := by
  intro h
  have h2 : str ": command failed, signal " ++ intRender s =
      str ": command failed, exit status " ++ intRender t := by
    have h3 := congrArg (List.drop c.length) h
    rwa [signalMsg, failedMsg, List.drop_left, List.drop_left] at h3
  have h4 := congrArg (List.take 19) h2
  rw [List.take_append_of_le_length (by decide),
    List.take_append_of_le_length (by decide)] at h4
  exact absurd h4 (by decide)

theorem statusConsistent_completed (c : Str) (rc : Int) :
    statusConsistent c (runAttemptResult c (.completed rc)) := by
  show statusConsistent c ⟨rc, setExitStatus c rc⟩
  unfold statusConsistent setExitStatus
  rcases lt_trichotomy rc 0 with h | h | h
  · rw [if_pos h]
    refine ⟨⟨fun he => absurd he.symm (successMsg_ne_signalMsg c (-rc)),
      fun he => absurd (he ▸ h) (by simp)⟩,
      ⟨fun _ => h, fun _ => ⟨-rc, rfl⟩⟩,
      ⟨fun he => ?_, fun hgt => absurd (lt_trans h hgt) (by simp)⟩⟩
    obtain ⟨s, hs⟩ := he
    exact absurd hs (signalMsg_ne_failedMsg c (-rc) s)
  · subst h
    rw [if_neg (by omega), if_pos rfl]
    refine ⟨⟨fun _ => rfl, fun _ => rfl⟩,
      ⟨fun he => ?_, fun hlt => absurd hlt (by simp)⟩,
      ⟨fun he => ?_, fun hgt => absurd hgt (by simp)⟩⟩
    · obtain ⟨s, hs⟩ := he
      exact absurd hs (successMsg_ne_signalMsg c s)
    · obtain ⟨s, hs⟩ := he
      exact absurd hs (successMsg_ne_failedMsg c s)
  · rw [if_neg (by omega), if_neg (by omega)]
    refine ⟨⟨fun he => absurd he.symm (successMsg_ne_failedMsg c rc),
      fun he => absurd (he ▸ h) (by simp)⟩,
      ⟨fun he => ?_, fun hlt => absurd (lt_trans hlt h) (by simp)⟩,
      ⟨fun _ => h, fun _ => ⟨rc, rfl⟩⟩⟩
    obtain ⟨s, hs⟩ := he
    exact absurd hs.symm (signalMsg_ne_failedMsg c s rc)

/-- C10: SizeString serialization round-trips — for every byte count the
constructor can produce (every `SizeString` built from a valid size string
holds `int(float(...))` of its input, hence a double-representable count),
re-parsing the `str(s)`/`asInteger` rendering yields the same byte count;
the zero size round-trips as well. -/
theorem c10_sizeString_roundtrip (b : Nat) (h : Rep53 b) :
    sizeStringParse (sizeStringAsInteger b) = some b ∧
    sizeStringParse (sizeStringAsInteger 0) = some 0 :=
  ⟨sizeString_roundtrip h, by decide⟩

theorem c10_sizeString_roundtrip_witness :
    sizeStringParse (sizeStringAsInteger 134217728) = some 134217728 ∧
    sizeStringParse (sizeStringAsInteger 0) = some 0 :=
  c10_sizeString_roundtrip 134217728 ⟨134217728, 0, by norm_num, by norm_num⟩

/-- C8 counterexample: the constructor's check (`count(os.sep) == 3` and a
`/dev/` prefix) accepts `/dev//x`, whose group component is empty, so the
claimed "nonempty group name" shape does not characterize acceptance. -/
theorem c8_lv_path_counterexample :
    lvAccepts (str "/dev//x") = true ∧ claimedLvShape (str "/dev//x") = false := by
  decide

/-- C8 amended: the `LogicalVolume` constructor succeeds exactly for
strings of the shape `/dev/<group>/<volume>` where the group and volume
names contain no further separator but may be empty; every other string
raises `ArgumentError`. -/
theorem c8_lv_path_amended (p : Str) :
    lvAccepts p = true ↔
      ∃ g v : Str, '/' ∉ g ∧ '/' ∉ v ∧ p = str "/dev/" ++ g ++ '/' :: v :=
  lvAccepts_iff p

/-- C2 counterexample: a spawn failure with errno 2 (`ENOENT`) records
`exitCode = (2 >> 8) & 0xff = 0` together with the synthesized failure
text, so the claimed "success exactly when exitCode = 0" equivalence fails
on the spawn-failure path. -/
theorem c2_exit_status_counterexample :
    (runAttemptResult (str "vdoformat")
        (.spawnFailure 2 (str "No such file or directory"))).exitCode = 0 ∧
    ¬statusConsistent (str "vdoformat")
      (runAttemptResult (str "vdoformat")
        (.spawnFailure 2 (str "No such file or directory"))) := by
  refine ⟨by decide, fun h => ?_⟩
  exact absurd (h.1.mpr (by decide)) (by decide)

/-- C2 amended: after a completed run (or `mock`), exit code and status
text satisfy the claimed classification — success iff 0, signal text iff
negative, exit-status failure text iff positive; on a spawn failure a
synthesized `command failed:` text is recorded, but the exit code is
`(errno >> 8) & 0xff`, which is 0 for every errno below 256, so the
classification does not extend to that path. -/
theorem c2_exit_status_consistency_amended (cmdname : Str) (rc : Int)
    (err : Nat) (s : Str) :
    statusConsistent cmdname (runAttemptResult cmdname (.completed rc)) ∧
    (runAttemptResult cmdname (.spawnFailure err s)).exitStatus =
      spawnFailMsg cmdname s ∧
    (runAttemptResult cmdname (.spawnFailure err s)).exitCode =
      Int.ofNat ((err >>> 8) &&& 255) ∧
    (err < 256 → (runAttemptResult cmdname (.spawnFailure err s)).exitCode = 0) := by
  refine ⟨statusConsistent_completed cmdname rc, rfl, rfl, fun hlt => ?_⟩
  show (Int.ofNat ((err >>> 8) &&& 255)) = 0
  rw [Nat.shiftRight_eq_div_pow, Nat.div_eq_of_lt (by norm_num at hlt ⊢; omega)]
  rfl

theorem c2_exit_status_consistency_amended_witness :
    statusConsistent (str "dmsetup")
      (runAttemptResult (str "dmsetup") (.completed (-9))) ∧
    (runAttemptResult (str "dmsetup")
        (.spawnFailure 2 (str "No such file or directory"))).exitStatus =
      spawnFailMsg (str "dmsetup") (str "No such file or directory") ∧
    (runAttemptResult (str "dmsetup")
        (.spawnFailure 2 (str "No such file or directory"))).exitCode =
      Int.ofNat ((2 >>> 8) &&& 255) ∧
    (2 < 256 → (runAttemptResult (str "dmsetup")
        (.spawnFailure 2 (str "No such file or directory"))).exitCode = 0) :=
  c2_exit_status_consistency_amended (str "dmsetup") (-9) 2
    (str "No such file or directory")

/-- C3 counterexample: with extend and suspend succeeding, the reconfigure
message failing and the resume also failing, `growPhysical` returns from
inside the `finally` block without reducing the volume back, so the
claimed unconditional reduce-back does not hold. -/
theorem c3_growPhysical_counterexample :
    (GrowEnv.mk true 8388608 true false false).extendOk = true ∧
    (GrowEnv.mk true 8388608 true false false).suspendOk = true ∧
    (GrowEnv.mk true 8388608 true false false).reconfigOk = false ∧
    ¬(GrowAction.resumeTarget ∈
        (vdoGrowPhysical 4194304 (GrowEnv.mk true 8388608 true false false)).trace ∧
      GrowAction.reduceLv 4194304 ∈
        (vdoGrowPhysical 4194304 (GrowEnv.mk true 8388608 true false false)).trace ∧
      (vdoGrowPhysical 4194304
        (GrowEnv.mk true 8388608 true false false)).physicalSize = 4194304 ∧
      (vdoGrowPhysical 4194304
        (GrowEnv.mk true 8388608 true false false)).retval = 1) := by
  decide

/-- C3 amended: when extend and suspend succeed and the reconfigure
message fails, `growPhysical` always issues the resume, leaves the
recorded `physicalSize` unchanged and returns the binary failure code 1;
the reduce back to the pre-grow size is performed exactly when the resume
succeeds (a resume failure returns immediately, leaving the volume
extended). -/
theorem c3_growPhysical_amended (ps : Nat) (env : GrowEnv)
    (h1 : env.extendOk = true) (h2 : env.suspendOk = true)
    (h3 : env.reconfigOk = false) :
    GrowAction.resumeTarget ∈ (vdoGrowPhysical ps env).trace ∧
    (vdoGrowPhysical ps env).physicalSize = ps ∧
    (vdoGrowPhysical ps env).retval = 1 ∧
    (env.resumeOk = true → GrowAction.reduceLv ps ∈ (vdoGrowPhysical ps env).trace) ∧
    (env.resumeOk = false →
      GrowAction.reduceLv ps ∉ (vdoGrowPhysical ps env).trace) := by
  obtain ⟨e1, e2, e3, e4, e5⟩ := env
  simp only at h1 h2 h3
  subst h1; subst h2; subst h3
  cases e5 <;> simp [vdoGrowPhysical]

theorem c3_growPhysical_amended_witness :
    GrowAction.resumeTarget ∈
      (vdoGrowPhysical 4194304 (GrowEnv.mk true 8388608 true false true)).trace ∧
    (vdoGrowPhysical 4194304
      (GrowEnv.mk true 8388608 true false true)).physicalSize = 4194304 ∧
    (vdoGrowPhysical 4194304 (GrowEnv.mk true 8388608 true false true)).retval = 1 ∧
    ((GrowEnv.mk true 8388608 true false true).resumeOk = true →
      GrowAction.reduceLv 4194304 ∈
        (vdoGrowPhysical 4194304 (GrowEnv.mk true 8388608 true false true)).trace) ∧
    ((GrowEnv.mk true 8388608 true false true).resumeOk = false →
      GrowAction.reduceLv 4194304 ∉
        (vdoGrowPhysical 4194304 (GrowEnv.mk true 8388608 true false true)).trace) :=
  c3_growPhysical_amended 4194304 (GrowEnv.mk true 8388608 true false true)
    rfl rfl rfl

/-- C4: loading a document whose root version attribute is outside the
supported set raises `BadConfigVersionError` at the very first parser
event, and the store's two dictionaries are still empty at the raise — no
partial state. -/
theorem c4_bad_version_rejected (d : ConfigDoc) (ro : Bool)
    (hver : d.version ∉ supportedSchemaVersions) :
    ∃ stE, readEvents (docEvents d) (confInit ro) =
        .error (ConfErr.badVersion d.version, stE) ∧
      stE.vdos = [] ∧ stE.albservers = [] := by
  refine ⟨ConfState.mk [] [] d.version false ro true [] [] [] [], ?_, rfl, rfl⟩
  have hstep : readEvent (confInit ro)
      (XmlEvent.startElem (str "vdoconfig") [(str "version", d.version)]) =
      .error (ConfErr.badVersion d.version,
        ConfState.mk [] [] d.version false ro true [] [] [] []) := by
    have hred : readEvent (confInit ro)
        (XmlEvent.startElem (str "vdoconfig") [(str "version", d.version)]) =
        (if d.version ∈ supportedSchemaVersions then
          .ok (ConfState.mk [] [] d.version false ro true [] [] [] [])
        else
          .error (ConfErr.badVersion d.version,
            ConfState.mk [] [] d.version false ro true [] [] [] [])) := rfl
    rw [hred, if_neg hver]
  rw [docEvents]
  simp [readEvents, hstep]

theorem c4_bad_version_rejected_witness :
    ∃ stE, readEvents (docEvents (ConfigDoc.mk (str "2.0") [] []))
        (confInit true) =
        .error (ConfErr.badVersion (ConfigDoc.mk (str "2.0") [] []).version, stE) ∧
      stE.vdos = [] ∧ stE.albservers = [] :=
  c4_bad_version_rejected (ConfigDoc.mk (str "2.0") [] []) true (by decide)

theorem waitForAux_all_fail (outcome : Nat → Bool) (hfail : ∀ i, outcome i = false) :
    ∀ fuel i, waitForAux outcome i fuel = (false, fuel, fuel) := by
  intro fuel
  induction fuel with
  | zero => intro i; rfl
  | succ f ih => intro i; simp [waitForAux, hfail i, ih (i + 1)]

/-- C6: with simulate mode off, `waitFor(retries = 3)` on a command whose
every invocation fails makes exactly 3 runs with a one-second sleep after
each failed attempt and then raises the timed-out `CommandError`; the loop
is structurally bounded by its retry budget. -/
theorem c6_waitFor_exhaustion (cmdname : Str) (outcome : Nat → Bool)
    (hfail : ∀ i, outcome i = false) :
    waitFor cmdname false 3 outcome = (.error (timedOutMsg cmdname 3), 3, 3) := by
  simp [waitFor, waitForAux_all_fail outcome hfail 3 0]

theorem c6_waitFor_exhaustion_witness :
    waitFor (str "albping") false 3 (fun _ => false) =
      (.error (timedOutMsg (str "albping") 3), 3, 3) :=
  c6_waitFor_exhaustion (str "albping") (fun _ => false) (fun _ => rfl)

/-- C9: on an open writable store that already holds a record under the
given name, `addVdo(name, vdo, replace=False)` returns `False` and leaves
the whole state — the record under the name, the service maps and the
dirty flag — exactly as it was; `addAlbserver` behaves symmetrically. -/
theorem c9_add_existing_unchanged (st : ConfState) (n n2 : Str)
    (v : VdoServiceRec) (a : AlbireoServiceRec)
    (hopen : st.fhOpen = true) (hrw : st.readonly = false)
    (hv : haveVdo st n = true) (ha : haveAlbserver st n2 = true) :
    addVdo st n v false = some (false, st) ∧
    addAlbserver st n2 a false = some (false, st) := by
  unfold addVdo addAlbserver
  rw [hopen, hrw]
  simp [hv, ha]

theorem c9_add_existing_unchanged_witness :
    addVdo demoConfState (str "vdo1") (vdoFresh (str "other")) false =
      some (false, demoConfState) ∧
    addAlbserver demoConfState (str "dedupe://localhost:8000")
      (albFresh (str "other")) false = some (false, demoConfState) :=
  c9_add_existing_unchanged demoConfState (str "vdo1")
    (str "dedupe://localhost:8000") (vdoFresh (str "other"))
    (albFresh (str "other")) rfl rfl (by decide) (by decide)

/-- C5: for an enabled service with simulate mode off whose resource is
genuinely running after a first successful `start()`, a second `start()`
returns ALREADY (1) — in particular never ERROR — for both `VdoService`
and `AlbireoService`; under simulate (`noRun`) mode the already-running
short-circuit is skipped (ALREADY is never returned) and the start
actions are attempted (and succeed, since `noRun` commands succeed). -/
theorem c5_start_idempotence (e1 e2 : VdoStartEnv) (a1 a2 : AlbStartEnv)
    (hv1 : (vdoStart e1).1 = 0)
    (hv2e : e2.enabled = true) (hv2r : e2.running = true) (hv2n : e2.noRun = false)
    (ha1 : (albStart a1).1 = 0)
    (ha2e : a2.enabled = true) (ha2r : a2.running = true) (ha2n : a2.noRun = false) :
    (vdoStart e2).1 = 1 ∧ (albStart a2).1 = 1 ∧
    (∀ e : VdoStartEnv, e.noRun = true → (vdoStart e).1 ≠ 1) ∧
    (∀ a : AlbStartEnv, a.noRun = true → (albStart a).1 ≠ 1) ∧
    (∀ e : VdoStartEnv, e.noRun = true → e.enabled = true →
      (vdoStart e).1 = 0 ∧ VdoStartAction.dmsetupCreate ∈ (vdoStart e).2) ∧
    (∀ a : AlbStartEnv, a.noRun = true → a.enabled = true →
      (albStart a).1 = 0 ∧ AlbStartAction.albserverLaunch ∈ (albStart a).2) := by
  refine ⟨?_, ?_, ?_, ?_, ?_, ?_⟩
  · obtain ⟨f1, f2, f3, f4, f5, f6, f7, f8, f9, f10, f11⟩ := e2
    simp only at hv2e hv2r hv2n
    subst hv2e; subst hv2r; subst hv2n
    simp [vdoStart]
  · obtain ⟨g1, g2, g3, g4, g5, g6, g7, g8⟩ := a2
    simp only at ha2e ha2r ha2n
    subst ha2e; subst ha2r; subst ha2n
    simp [albStart]
  · intro e hn
    obtain ⟨f1, f2, f3, f4, f5, f6, f7, f8, f9, f10, f11⟩ := e
    simp only at hn
    subst hn
    cases f1 <;> cases f5 <;> cases f6 <;> cases f10 <;>
      simp [vdoStart, vdoStartTail, runOk]
  · intro a hn
    obtain ⟨g1, g2, g3, g4, g5, g6, g7, g8⟩ := a
    simp only at hn
    subst hn
    cases g1 <;> cases g4 <;> cases g7 <;> simp [albStart, runOk]
  · intro e hn he
    obtain ⟨f1, f2, f3, f4, f5, f6, f7, f8, f9, f10, f11⟩ := e
    simp only at hn he
    subst hn; subst he
    cases f5 <;> cases f6 <;> cases f10 <;>
      simp [vdoStart, vdoStartTail, runOk]
  · intro a hn ha2
    obtain ⟨g1, g2, g3, g4, g5, g6, g7, g8⟩ := a
    simp only at hn ha2
    subst hn; subst ha2
    cases g4 <;> cases g7 <;> simp [albStart, runOk]

theorem c5_start_idempotence_witness :
    (vdoStart demoVdoStartSecond).1 = 1 ∧ (albStart demoAlbStartSecond).1 = 1 ∧
    (∀ e : VdoStartEnv, e.noRun = true → (vdoStart e).1 ≠ 1) ∧
    (∀ a : AlbStartEnv, a.noRun = true → (albStart a).1 ≠ 1) ∧
    (∀ e : VdoStartEnv, e.noRun = true → e.enabled = true →
      (vdoStart e).1 = 0 ∧ VdoStartAction.dmsetupCreate ∈ (vdoStart e).2) ∧
    (∀ a : AlbStartEnv, a.noRun = true → a.enabled = true →
      (albStart a).1 = 0 ∧ AlbStartAction.albserverLaunch ∈ (albStart a).2) :=
  c5_start_idempotence demoVdoStartFirst demoVdoStartSecond demoAlbStartFirst
    demoAlbStartSecond (by decide) rfl rfl rfl (by decide) rfl rfl rfl

/-- C7: `VdoService.create`'s two-step contract — an `lvcreate` failure
returns ERROR with nothing rolled back (no remove, no reduce); on volume
creation the realized size is rounded down to a multiple of the physical
block size and recorded as `physicalSize`; an unset (zero) `logicalSize`
defaults to that rounded size; a formatter failure removes the just-made
volume best-effort and returns ERROR; success of both steps returns
SUCCESS.  (The hypotheses fix simulate mode off, a passing size check, a
positive block size, and a double-representable realized size.) -/
theorem c7_create_contract (logicalSize0 physicalSizeReq blockSize : Nat)
    (env : CreateEnv) (hchk : env.sizeCheckOk = true) (hnr : env.noRun = false)
    (hbs : 0 < blockSize) (hrep : env.realizedBytes < 2 ^ 53) :
    (env.lvcreateOk = false →
      vdoCreate logicalSize0 physicalSizeReq blockSize env =
        .ok ⟨2, physicalSizeReq, logicalSize0, [CreateAction.lvcreate]⟩) ∧
    (env.lvcreateOk = true →
      ∃ res, vdoCreate logicalSize0 physicalSizeReq blockSize env = .ok res ∧
        res.physicalSize = env.realizedBytes / blockSize * blockSize ∧
        (logicalSize0 = 0 → res.logicalSize = res.physicalSize) ∧
        (env.formatOk = false → res.code = 2 ∧ CreateAction.removeLv ∈ res.trace) ∧
        (env.formatOk = true → res.code = 0 ∧ CreateAction.removeLv ∉ res.trace)) := by
  obtain ⟨noRun, sizeCheckOk, lvcreateOk, realizedBytes, formatOk⟩ := env
  simp only at hchk hnr hrep
  subst hchk; subst hnr
  constructor
  · intro hlv
    simp only at hlv
    subst hlv
    rfl
  · intro hlv
    simp only at hlv
    subst hlv
    have hsub : realizedBytes - realizedBytes % blockSize =
        realizedBytes / blockSize * blockSize :=
      Nat.sub_eq_of_eq_add (Nat.div_add_mod' realizedBytes blockSize).symm
    have hlvc : lvCreate physicalSizeReq blockSize
        (CreateEnv.mk false true true realizedBytes formatOk) =
        .ok (realizedBytes / blockSize * blockSize)
          (if realizedBytes % blockSize = 0 then [CreateAction.lvcreate]
           else [CreateAction.lvcreate,
             CreateAction.reduceLv (realizedBytes / blockSize * blockSize)]) := by
      by_cases hslop : realizedBytes % blockSize = 0
      · simp [lvCreate, runOk, hslop,
          Nat.div_mul_cancel (Nat.dvd_of_mod_eq_zero hslop)]
      · have hrep2 : fl53 (realizedBytes - realizedBytes % blockSize) =
            realizedBytes - realizedBytes % blockSize :=
          fl53_of_rep ⟨realizedBytes - realizedBytes % blockSize, 0,
            lt_of_le_of_lt (Nat.sub_le _ _) hrep, by simp⟩
        have hparse : sizeStringParse
            (natRender (realizedBytes - realizedBytes % blockSize) ++ ['B']) =
            some (realizedBytes - realizedBytes % blockSize) :=
          sizeStringParse_render_suffix (by decide) hrep2 (Nat.mul_one _)
        rw [hsub] at hparse
        simp [lvCreate, runOk, hslop, hsub, hparse]
    have hQQ : realizedBytes / blockSize * blockSize / blockSize * blockSize =
        realizedBytes / blockSize * blockSize := by
      rw [Nat.mul_div_cancel _ hbs]
    have hnotmem : CreateAction.removeLv ∉
        (if realizedBytes % blockSize = 0 then [CreateAction.lvcreate]
         else [CreateAction.lvcreate,
           CreateAction.reduceLv (realizedBytes / blockSize * blockSize)]) := by
      by_cases hslop : realizedBytes % blockSize = 0 <;> simp [hslop]
    cases formatOk with
    | false =>
      refine ⟨⟨2, realizedBytes / blockSize * blockSize,
        (if logicalSize0 = 0 then realizedBytes / blockSize * blockSize
         else logicalSize0) / blockSize * blockSize,
        ((if realizedBytes % blockSize = 0 then [CreateAction.lvcreate]
          else [CreateAction.lvcreate,
            CreateAction.reduceLv (realizedBytes / blockSize * blockSize)]) ++
          [CreateAction.vdoformat]) ++ [CreateAction.removeLv]⟩,
        ?_, rfl, ?_, ?_, ?_⟩
      · simp [vdoCreate, hlvc, runOk]
      · intro h0
        subst h0
        simp [hQQ]
      · intro _
        exact ⟨rfl, by simp⟩
      · intro h
        exact absurd h (by simp)
    | true =>
      refine ⟨⟨0, realizedBytes / blockSize * blockSize,
        (if logicalSize0 = 0 then realizedBytes / blockSize * blockSize
         else logicalSize0) / blockSize * blockSize,
        (if realizedBytes % blockSize = 0 then [CreateAction.lvcreate]
         else [CreateAction.lvcreate,
           CreateAction.reduceLv (realizedBytes / blockSize * blockSize)]) ++
          [CreateAction.vdoformat]⟩,
        ?_, rfl, ?_, ?_, ?_⟩
      · simp [vdoCreate, hlvc, runOk]
      · intro h0
        subst h0
        simp [hQQ]
      · intro h
        exact absurd h (by simp)
      · intro _
        refine ⟨rfl, ?_⟩
        simp only [List.mem_append, List.mem_singleton]
        rintro (hmem | hmem)
        · exact hnotmem hmem
        · exact absurd hmem (by decide)

theorem c7_create_contract_witness :
    (demoCreateEnv.lvcreateOk = false →
      vdoCreate 0 21474836480 4096 demoCreateEnv =
        .ok ⟨2, 21474836480, 0, [CreateAction.lvcreate]⟩) ∧
    (demoCreateEnv.lvcreateOk = true →
      ∃ res, vdoCreate 0 21474836480 4096 demoCreateEnv = .ok res ∧
        res.physicalSize = demoCreateEnv.realizedBytes / 4096 * 4096 ∧
        ((0 : Nat) = 0 → res.logicalSize = res.physicalSize) ∧
        (demoCreateEnv.formatOk = false →
          res.code = 2 ∧ CreateAction.removeLv ∈ res.trace) ∧
        (demoCreateEnv.formatOk = true →
          res.code = 0 ∧ CreateAction.removeLv ∉ res.trace)) :=
  c7_create_contract 0 21474836480 4096 demoCreateEnv rfl rfl (by norm_num)
    (by decide)

/-- C1: configuration round-trip — for every configuration whose service
records carry valid names (unique, XML-safe) and valid attribute values
(XML-safe free text, a validated logical-volume path, double-representable
size byte counts, i.e. everything a real `SizeString`/`LogicalVolume` can
hold), writing with `Configuration.persist` and reading the written
document back through the expat handlers rebuilds both service maps with
every record's typed attributes — integers, booleans, size byte counts,
logical-volume paths and free text — equal to the originals, for every key
of `getKeys()`. -/
theorem c1_configuration_roundtrip (version : Str)
    (vdos : List (Str × VdoServiceRec)) (albs : List (Str × AlbireoServiceRec))
    (ro : Bool) (hver : version ∈ supportedSchemaVersions)
    (hvalidV : ∀ nr ∈ vdos, VdoValid nr.2 ∧ nr.2.name = nr.1)
    (hvalidA : ∀ nr ∈ albs, AlbValid nr.2 ∧ nr.2.name = nr.1)
    (hnodupV : (vdos.map Prod.fst).Nodup) (hnodupA : (albs.map Prod.fst).Nodup)
    (doc : ConfigDoc) (hdoc : persistDoc version vdos albs = some doc) :
    ∃ final, readEvents (docEvents doc) (confInit ro) = .ok final ∧
      final.vdos = vdos ∧ final.albservers = albs :=
  readEvents_docEvents version vdos albs ro hver hvalidV hvalidA hnodupV
    hnodupA doc hdoc

theorem c1_configuration_roundtrip_witness :
    ∃ doc, persistDoc (str "1.0") [(str "vdo1", demoVdoRec)]
        [(str "dedupe://localhost:8000", demoAlbRec)] = some doc ∧
      ∃ final, readEvents (docEvents doc) (confInit false) = .ok final ∧
        final.vdos = [(str "vdo1", demoVdoRec)] ∧
        final.albservers = [(str "dedupe://localhost:8000", demoAlbRec)] := by
  have hvalidV : ∀ nr ∈ [(str "vdo1", demoVdoRec)],
      VdoValid nr.2 ∧ nr.2.name = nr.1 := by
    intro nr hnr
    simp only [List.mem_singleton] at hnr
    subst hnr
    exact ⟨⟨⟨134217728, 0, by norm_num, by decide⟩, ⟨21474836480, 0, by norm_num, by decide⟩,
      ⟨21474836480, 0, by norm_num, by decide⟩, ⟨0, 0, by norm_num, by decide⟩,
      ⟨0, 0, by norm_num, by decide⟩,
      ⟨str "/dev/vdovg/vdo1-backing", rfl, by decide, by decide⟩,
      by decide, by decide, by decide, by decide⟩, rfl⟩
  have hvalidA : ∀ nr ∈ [(str "dedupe://localhost:8000", demoAlbRec)],
      AlbValid nr.2 ∧ nr.2.name = nr.1 := by
    intro nr hnr
    simp only [List.mem_singleton] at hnr
    subst hnr
    exact ⟨⟨⟨21474836480, 0, by norm_num, by decide⟩,
      ⟨str "/dev/vdovg/vdo1-index", rfl, by decide, by decide⟩,
      by decide, by decide, by decide, by decide⟩, rfl⟩
  cases hd : persistDoc (str "1.0") [(str "vdo1", demoVdoRec)]
      [(str "dedupe://localhost:8000", demoAlbRec)] with
  | none => exact absurd hd (by decide)
  | some doc =>
    exact ⟨doc, rfl,
      c1_configuration_roundtrip (str "1.0") _ _ false (by decide) hvalidV
        hvalidA (by decide) (by decide) doc hd⟩
